import Mathlib

/-!
Formal model of the transaction submission / confirmation engine of the
NFTToolz gateway, embedded shallowly in Lean 4.

JavaScript numbers are modelled as exact rationals (`ℚ`); raw on-chain
integer quantities (lamports, wei, raw token amounts) are modelled as `ℕ`
or `ℤ`.  Each network round trip is modelled as an explicit input to the
embedded function: a value of an `Except`/`Option`/outcome type describing
what the upstream RPC or oracle returned (including "the call threw").
Process-wide mutable caches are modelled by explicit state passing.

The definitions follow the TypeScript sources:
  * `src/chains/solana/solana-priority-fees.ts` (`SolanaPriorityFees`)
  * `src/chains/ethereum/ethereum.ts`           (`Ethereum`)
  * `src/connectors/etcSwap/etcSwap.utils.ts`   (`formatTokenAmount`)
  * the Solana chain adapter (`Solana`)
-/

namespace Gateway

/-! ## JavaScript helpers -/

/-- JS `x || d` for an optional numeric value: `undefined`, `null` and `0`
are falsy, so they are replaced by the default. -/
def jsOrNum (x : Option ℚ) (d : ℚ) : ℚ :=
  match x with
  | none => d
  | some v => if v = 0 then d else v

/-! ## Solana priority-fee estimator

Model of `SolanaPriorityFees.estimatePriorityFee`
(src/chains/solana/solana-priority-fees.ts).  The static class field
`lastPriorityFeeEstimate` is the explicit `cache` parameter; `Date.now()`
is the explicit `now` parameter; the outcome of the Helius `fetch` round
trip is the `resp` parameter. -/

/-- Relevant slice of `SolanaNetworkConfig`. -/
structure SolanaFeeConfig where
  useHeliusRestRPC : Bool
  heliusAPIKey : String
  /-- `minPriorityFeePerCU`; `none` models an absent (`undefined`) field. -/
  minPriorityFeePerCU : Option ℚ
deriving Repr

/-- One entry of the process-wide cache `lastPriorityFeeEstimate`. -/
structure SolFeeCacheEntry where
  timestamp : ℤ
  fee : ℚ
deriving Repr, DecidableEq

/-- `PRIORITY_FEE_CACHE_MS = 10000` (10 second cache). -/
def PRIORITY_FEE_CACHE_MS : ℤ := 10000

/-- Outcome of the Helius `getPriorityFeeEstimate` round trip. -/
inductive HeliusOutcome where
  /-- the `fetch` (or `response.json()`) call threw -/
  | throws
  /-- `!response.ok` -/
  | badStatus
  /-- `data.error` present -/
  | rpcError
  /-- `data.result?.priorityFeeEstimate` is not a number -/
  | nonNumber
  /-- a numeric `priorityFeeEstimate`, in micro-lamports per CU -/
  | ok (priorityFeeEstimate : ℚ)
deriving Repr, DecidableEq

/-- The `config.minPriorityFeePerCU || 0.1` expression that every
fallback path of the estimator evaluates. -/
def solMinimumFee (cfg : SolanaFeeConfig) : ℚ :=
  jsOrNum cfg.minPriorityFeePerCU (1/10)

/-- The API-key validity test:
`!apiKey || apiKey.trim() === '' || apiKey === 'HELIUS_API_KEY'`
(`trim()` yields the empty string exactly when every character of the
key is whitespace). -/
def heliusKeyInvalid (key : String) : Bool :=
  key = "" || key.toList.all Char.isWhitespace || key = "HELIUS_API_KEY"

/-- Cache-hit test of `estimatePriorityFee` (first `if` of the method):
`lastPriorityFeeEstimate && now - timestamp < PRIORITY_FEE_CACHE_MS`. -/
def solFeeCacheHit (cache : Option SolFeeCacheEntry) (now : ℤ) : Bool :=
  match cache with
  | none => false
  | some c => now - c.timestamp < PRIORITY_FEE_CACHE_MS

/-- `SolanaPriorityFees.estimatePriorityFee`, returning the estimate (in
lamports per CU) together with the new cache state. -/
def estimatePriorityFee (cfg : SolanaFeeConfig) (cache : Option SolFeeCacheEntry)
    (now : ℤ) (resp : HeliusOutcome) : ℚ × Option SolFeeCacheEntry :=
  if solFeeCacheHit cache now then
    ((cache.map SolFeeCacheEntry.fee).getD 0, cache)
  else if ¬ cfg.useHeliusRestRPC then
    (solMinimumFee cfg, cache)
  else if heliusKeyInvalid cfg.heliusAPIKey then
    (solMinimumFee cfg, cache)
  else
    match resp with
    | .throws => (solMinimumFee cfg, cache)
    | .badStatus => (solMinimumFee cfg, cache)
    | .rpcError => (solMinimumFee cfg, cache)
    | .nonNumber => (solMinimumFee cfg, cache)
    | .ok est =>
      -- `priorityFeeLamports = priorityFeeEstimate / 1_000_000`
      let priorityFeeLamports := est / 1000000
      -- `finalFee = Math.max(priorityFeeLamports, minimumFee)`
      let finalFee := max priorityFeeLamports (solMinimumFee cfg)
      (finalFee, some ⟨now, finalFee⟩)

/-- A sequence of calls to `estimatePriorityFee`, threading the static
cache through; each call supplies its `Date.now()` and Helius outcome.
Returns the list of returned estimates. -/
def solFeeTrace (cfg : SolanaFeeConfig) :
    Option SolFeeCacheEntry → List (ℤ × HeliusOutcome) → List ℚ
  | _, [] => []
  | cache, (t, r) :: rest =>
    let out := estimatePriorityFee cfg cache t r
    out.1 :: solFeeTrace cfg out.2 rest

/-- The configured minimum is a lower bound of `solMinimumFee`. -/
lemma solMinimumFee_ge (cfg : SolanaFeeConfig) (m : ℚ)
    (hm : cfg.minPriorityFeePerCU = some m) : m ≤ solMinimumFee cfg := by
  simp only [solMinimumFee, jsOrNum, hm]
  split
  · next h => subst h; norm_num
  · exact le_refl m

/-- Lower bound for every cache-state/outcome combination, assuming the
incoming cache entry (if any) already respects the floor. -/
lemma estimatePriorityFee_ge (cfg : SolanaFeeConfig) (cache : Option SolFeeCacheEntry)
    (now : ℤ) (resp : HeliusOutcome)
    (hc : ∀ c, cache = some c → solMinimumFee cfg ≤ c.fee) :
    solMinimumFee cfg ≤ (estimatePriorityFee cfg cache now resp).1 ∧
    (∀ c, (estimatePriorityFee cfg cache now resp).2 = some c →
      solMinimumFee cfg ≤ c.fee) := by
  unfold estimatePriorityFee
  split
  · next hhit =>
    constructor
    · cases cache with
      | none => simp [solFeeCacheHit] at hhit
      | some c => simpa using hc c rfl
    · intro c h
      simp only at h
      exact hc c h
  · split
    · exact ⟨le_refl _, fun c h => hc c h⟩
    · split
      · exact ⟨le_refl _, fun c h => hc c h⟩
      · cases resp with
        | throws => exact ⟨le_refl _, fun c h => hc c h⟩
        | badStatus => exact ⟨le_refl _, fun c h => hc c h⟩
        | rpcError => exact ⟨le_refl _, fun c h => hc c h⟩
        | nonNumber => exact ⟨le_refl _, fun c h => hc c h⟩
        | ok est =>
          refine ⟨le_max_right _ _, ?_⟩
          intro c h
          simp only [Option.some.injEq] at h
          subst h
          exact le_max_right _ _

/-- Every estimate in a trace starting from a floor-respecting cache is at
least the floor. -/
lemma solFeeTrace_ge (cfg : SolanaFeeConfig) (script : List (ℤ × HeliusOutcome)) :
    ∀ cache, (∀ c, cache = some c → solMinimumFee cfg ≤ c.fee) →
      ∀ q ∈ solFeeTrace cfg cache script, solMinimumFee cfg ≤ q := by
  induction script with
  | nil => intro cache _ q hq; simp [solFeeTrace] at hq
  | cons step rest ih =>
    intro cache hc q hq
    obtain ⟨t, r⟩ := step
    simp only [solFeeTrace, List.mem_cons] at hq
    rcases hq with hq | hq
    · subst hq
      exact (estimatePriorityFee_ge cfg cache t r hc).1
    · exact ih _ (estimatePriorityFee_ge cfg cache t r hc).2 q hq

/-! ## Ethereum gas-price estimator

Model of `Ethereum.estimateGasPrice` (src/chains/ethereum/ethereum.ts).
The static field `Ethereum.lastGasPriceEstimate` is the explicit cache
parameter.  Wei quantities (ethers `BigNumber`s) are `ℤ`; GWEI
quantities (JS numbers) are `ℚ`; a wei value `w` renders as `w / 10^9`
GWEI (`utils.formatUnits(·, 'gwei')` / the literal `* 1e-9`). -/

/-- Relevant slice of the `Ethereum` instance configuration.
`minGasPrice` is the already-defaulted field set in the constructor
(`config.minGasPrice || 0.1`). -/
structure EthConfig where
  network : String
  minGasPrice : ℚ
  maxFeePerGas : Option ℚ
  maxPriorityFeePerGas : Option ℚ
  /-- whether `this.etherscanService` was initialised -/
  hasEtherscan : Bool
deriving Repr

/-- One entry of the static cache `Ethereum.lastGasPriceEstimate`. -/
structure EthGasCacheEntry where
  timestamp : ℤ
  gasPrice : ℚ
  maxFeePerGas : Option ℚ
  maxPriorityFeePerGas : Option ℚ
  isEIP1559 : Bool
deriving Repr, DecidableEq

/-- `GAS_PRICE_CACHE_MS = 10000` (10 second cache). -/
def GAS_PRICE_CACHE_MS : ℤ := 10000

/-- Results of the upstream round trips a single `estimateGasPrice` call
can make.  `Except Unit α` is "the call threw, or returned an `α`". -/
structure EthUpstream where
  /-- `etherscanService.getRecommendedGasPrices('propose')`:
  `(maxFeePerGas, maxPriorityFeePerGas)` in GWEI -/
  etherscan : Except Unit (ℚ × ℚ)
  /-- `provider.getFeeData()`: `none` when `maxFeePerGas` /
  `maxPriorityFeePerGas` are null, otherwise both in wei -/
  feeData : Except Unit (Option (ℤ × ℤ))
  /-- `provider.getBlock('latest').baseFeePerGas` in wei (`none` = null,
  replaced by `BigNumber.from('0')`) -/
  latestBaseFee : Except Unit (Option ℤ)
  /-- `provider.getGasPrice()` in wei -/
  gasPrice : Except Unit ℤ
  /-- `provider.send('eth_maxPriorityFeePerGas', [])` in wei -/
  rpcPriorityFee : Except Unit ℤ
deriving Repr

/-- The static EIP-1559 capability table
(`network === 'mainnet' || ... || network === 'base'`). -/
def supportsEIP1559 (network : String) : Bool :=
  network = "mainnet" || network = "polygon" || network = "arbitrum" ||
    network = "optimism" || network = "base"

/-- Cache-hit test (`lastGasPriceEstimate && now - timestamp < TTL`). -/
def ethGasCacheHit (cache : Option EthGasCacheEntry) (now : ℤ) : Bool :=
  match cache with
  | none => false
  | some c => now - c.timestamp < GAS_PRICE_CACHE_MS

/-- Resolution of `networkMaxFeeGwei` / `networkPriorityFeeGwei` inside
the EIP-1559 branch: Etherscan first (when configured), then the RPC
`getFeeData` + latest-block fallback.  `none` means both remained
`undefined` (every upstream failed or returned incomplete data). -/
def ethNetworkFees (cfg : EthConfig) (u : EthUpstream) : Option (ℚ × ℚ) :=
  let fromScan : Option (ℚ × ℚ) :=
    if cfg.hasEtherscan then
      match u.etherscan with
      | .ok p => some p
      | .error _ => none
    else none
  match fromScan with
  | some p => some p
  | none =>
    match u.feeData, u.latestBaseFee with
    | .ok (some (mf, pf)), .ok bfOpt =>
      -- `baseFee = block.baseFeePerGas || BigNumber.from('0')`
      let baseFee := bfOpt.getD 0
      -- `recommendedMaxFee = baseFee.mul(2).add(maxPriorityFeePerGas)`
      let recommendedMaxFee := baseFee * 2 + pf
      -- `maxFeePerGas = feeData.maxFeePerGas.gt(recommended) ? feeData.maxFeePerGas : recommended`
      let maxFeePerGas := if mf > recommendedMaxFee then mf else recommendedMaxFee
      some ((maxFeePerGas : ℚ) / 10 ^ 9, (pf : ℚ) / 10 ^ 9)
    | _, _ => none

/-- The EIP-1559 fee pair `(maxFeePerGasGwei, maxPriorityFeePerGasGwei)`
that the EIP-1559 `try` block of `estimateGasPrice` resolves: configured
override first, else network sources; `none` models the
`throw new Error('EIP-1559 fee data not available ...')` (and the
non-EIP-1559 networks that never enter the block), which falls through
to legacy pricing. -/
def ethEipFees (cfg : EthConfig) (u : EthUpstream) : Option (ℚ × ℚ) :=
  if supportsEIP1559 cfg.network then
    match cfg.maxFeePerGas, cfg.maxPriorityFeePerGas with
    | some mf, some pf => some (mf, pf)
    | _, _ => ethNetworkFees cfg u
  else none

/-- The legacy gas-price estimation block of `estimateGasPrice`
(`try { getGasPrice ... } catch { return minGasPrice }`). -/
def ethLegacyEstimate (cfg : EthConfig) (cache : Option EthGasCacheEntry)
    (now : ℤ) (u : EthUpstream) : ℚ × Option EthGasCacheEntry :=
  match u.gasPrice with
  | .error _ => (cfg.minGasPrice, cache)
  | .ok baseFee =>
    -- `priorityFee` is only fetched on mainnet, otherwise stays 0; a
    -- throwing fetch is caught by the surrounding `catch`
    match (if cfg.network = "mainnet" then u.rpcPriorityFee else .ok 0) with
    | .error _ => (cfg.minGasPrice, cache)
    | .ok priorityFee =>
      let baseWithPriority := baseFee + priorityFee
      -- `minGasPriceWei = utils.parseUnits(minGasPrice, 'gwei')`
      let minGasPriceWei : ℚ := cfg.minGasPrice * 10 ^ 9
      -- `adjustedFee = baseWithPriority.lt(min) ? min : baseWithPriority`
      let adjustedFee : ℚ :=
        if (baseWithPriority : ℚ) < minGasPriceWei then minGasPriceWei
        else (baseWithPriority : ℚ)
      let totalFeeGwei := adjustedFee / 10 ^ 9
      (totalFeeGwei, some ⟨now, totalFeeGwei, none, none, false⟩)

/-- `Ethereum.estimateGasPrice`, returning the GWEI estimate together
with the new cache state. -/
def estimateGasPrice (cfg : EthConfig) (cache : Option EthGasCacheEntry)
    (now : ℤ) (u : EthUpstream) : ℚ × Option EthGasCacheEntry :=
  if ethGasCacheHit cache now then
    ((cache.map EthGasCacheEntry.gasPrice).getD 0, cache)
  else
    match ethEipFees cfg u with
    | some (maxFeeGwei, prioGwei) =>
      -- `if (maxFeePerGasGwei < minGasPrice) maxFeePerGasGwei = minGasPrice`
      let maxFee' := if maxFeeGwei < cfg.minGasPrice then cfg.minGasPrice else maxFeeGwei
      (maxFee', some ⟨now, maxFee', some maxFee', some prioGwei, true⟩)
    | none => ethLegacyEstimate cfg cache now u

/-- A sequence of calls to `estimateGasPrice`, threading the static cache
through. -/
def ethGasTrace (cfg : EthConfig) :
    Option EthGasCacheEntry → List (ℤ × EthUpstream) → List ℚ
  | _, [] => []
  | cache, (t, u) :: rest =>
    let out := estimateGasPrice cfg cache t u
    out.1 :: ethGasTrace cfg out.2 rest

/-- Lower bound for the legacy estimation block. -/
lemma ethLegacyEstimate_ge (cfg : EthConfig) (cache : Option EthGasCacheEntry)
    (now : ℤ) (u : EthUpstream)
    (hc : ∀ c, cache = some c → cfg.minGasPrice ≤ c.gasPrice) :
    cfg.minGasPrice ≤ (ethLegacyEstimate cfg cache now u).1 ∧
    (∀ c, (ethLegacyEstimate cfg cache now u).2 = some c →
      cfg.minGasPrice ≤ c.gasPrice) := by
  unfold ethLegacyEstimate
  match u.gasPrice with
  | .error e => exact ⟨le_refl _, fun c h => hc c h⟩
  | .ok baseFee =>
    simp only
    match (if cfg.network = "mainnet" then u.rpcPriorityFee else .ok 0) with
    | .error e => exact ⟨le_refl _, fun c h => hc c h⟩
    | .ok priorityFee =>
      simp only
      have hcancel : cfg.minGasPrice * 10 ^ 9 / 10 ^ 9 = cfg.minGasPrice :=
        mul_div_cancel_right₀ _ (by norm_num)
      have hbound : cfg.minGasPrice ≤
          (if ((baseFee + priorityFee : ℤ) : ℚ) < cfg.minGasPrice * 10 ^ 9
            then cfg.minGasPrice * 10 ^ 9
            else ((baseFee + priorityFee : ℤ) : ℚ)) / 10 ^ 9 := by
        by_cases hlt : ((baseFee + priorityFee : ℤ) : ℚ) < cfg.minGasPrice * 10 ^ 9
        · simp only [hlt, if_true, hcancel, le_refl]
        · simp only [hlt, if_false]
          rw [le_div_iff₀ (by norm_num : (0:ℚ) < 10 ^ 9)]
          exact le_of_not_lt hlt
      refine ⟨hbound, ?_⟩
      intro c h
      simp only [Option.some.injEq] at h
      subst h
      exact hbound

/-- Lower bound for a single `estimateGasPrice` call, assuming the
incoming cache entry (if any) respects the floor. -/
lemma estimateGasPrice_ge (cfg : EthConfig) (cache : Option EthGasCacheEntry)
    (now : ℤ) (u : EthUpstream)
    (hc : ∀ c, cache = some c → cfg.minGasPrice ≤ c.gasPrice) :
    cfg.minGasPrice ≤ (estimateGasPrice cfg cache now u).1 ∧
    (∀ c, (estimateGasPrice cfg cache now u).2 = some c →
      cfg.minGasPrice ≤ c.gasPrice) := by
  unfold estimateGasPrice
  split
  · next hhit =>
    constructor
    · cases cache with
      | none => simp [ethGasCacheHit] at hhit
      | some c => simpa using hc c rfl
    · intro c h
      simp only at h
      exact hc c h
  · split
    · next mf pf hp =>
      have hclamp : cfg.minGasPrice ≤ if mf < cfg.minGasPrice then cfg.minGasPrice else mf := by
        by_cases hlt : mf < cfg.minGasPrice
        · simp [hlt]
        · simp only [hlt, if_false]
          exact le_of_not_lt hlt
      refine ⟨hclamp, ?_⟩
      intro c h
      simp only [Option.some.injEq] at h
      subst h
      exact hclamp
    · exact ethLegacyEstimate_ge cfg cache now u hc

/-- Every estimate in an Ethereum gas-price trace starting from a
floor-respecting cache is at least the configured minimum. -/
lemma ethGasTrace_ge (cfg : EthConfig) (script : List (ℤ × EthUpstream)) :
    ∀ cache, (∀ c, cache = some c → cfg.minGasPrice ≤ c.gasPrice) →
      ∀ q ∈ ethGasTrace cfg cache script, cfg.minGasPrice ≤ q := by
  induction script with
  | nil => intro cache _ q hq; simp [ethGasTrace] at hq
  | cons step rest ih =>
    intro cache hc q hq
    obtain ⟨t, u⟩ := step
    simp only [ethGasTrace, List.mem_cons] at hq
    rcases hq with hq | hq
    · subst hq
      exact (estimateGasPrice_ge cfg cache t u hc).1
    · exact ih _ (estimateGasPrice_ge cfg cache t u hc).2 q hq

/-- C3: for every configured minimum price `m`, every call to the fee
estimator returns a unit price `≥ m`, regardless of what the upstream
oracle or RPC returns (including `0` or a negative value): the EVM
estimator clamps both the EIP-1559 and legacy results to the configured
minimum gas price and returns the minimum on total failure, and the
Solana estimator returns `max(oracle estimate, configured minimum)`
(with the `0.1` default when the configured value is absent or `0`).
Stated over arbitrary call traces starting from an empty cache. -/
theorem fee_estimator_respects_configured_minimum
    (ethCfg : EthConfig) (ethScript : List (ℤ × EthUpstream))
    (solCfg : SolanaFeeConfig) (m : ℚ) (solScript : List (ℤ × HeliusOutcome))
    (hm : solCfg.minPriorityFeePerCU = some m) :
    (∀ q ∈ ethGasTrace ethCfg none ethScript, ethCfg.minGasPrice ≤ q) ∧
    (∀ q ∈ solFeeTrace solCfg none solScript, m ≤ q) := by
  constructor
  · exact ethGasTrace_ge ethCfg ethScript none (by intro c h; cases h)
  · intro q hq
    exact le_trans (solMinimumFee_ge solCfg m hm)
      (solFeeTrace_ge solCfg solScript none (by intro c h; cases h) q hq)

/-- Witness for `fee_estimator_respects_configured_minimum`: a concrete
mainnet configuration with min gas price `0.1` GWEI whose only upstream
call fails, and a Solana configuration with `minPriorityFeePerCU = 0.5`
whose Helius fetch throws. -/
theorem fee_estimator_respects_configured_minimum_witness :
    (SolanaFeeConfig.mk false "" (some (1/2))).minPriorityFeePerCU = some (1/2) ∧
    ((∀ q ∈ ethGasTrace (EthConfig.mk "mainnet" (1/10) none none false) none
        [(0, EthUpstream.mk (.error ()) (.error ()) (.error ()) (.error ()) (.error ()))],
        (EthConfig.mk "mainnet" (1/10) none none false).minGasPrice ≤ q) ∧
      (∀ q ∈ solFeeTrace (SolanaFeeConfig.mk false "" (some (1/2))) none
        [((0 : ℤ), HeliusOutcome.throws)], (1/2 : ℚ) ≤ q)) :=
  ⟨rfl, fee_estimator_respects_configured_minimum
    (EthConfig.mk "mainnet" (1/10) none none false)
    [(0, EthUpstream.mk (.error ()) (.error ()) (.error ()) (.error ()) (.error ()))]
    (SolanaFeeConfig.mk false "" (some (1/2))) (1/2)
    [((0 : ℤ), HeliusOutcome.throws)] rfl⟩

/-- Failure classification of a Helius outcome: everything except a
numeric estimate. -/
def HeliusOutcome.isFailure : HeliusOutcome → Bool
  | .ok _ => false
  | _ => true

/-- C7: the fee estimator never throws for a transient upstream failure.
Both embedded estimators are total functions (upstream exceptions are
explicit `Except.error` inputs, fully consumed by the definitions); on a
cache miss with every upstream call failing, each returns exactly its
configured floor value and leaves the cache untouched.  For the EVM
estimator the configured EIP-1559 override must be absent, otherwise no
upstream call is consulted at all. -/
theorem fee_estimator_failure_returns_floor
    (ethCfg : EthConfig) (cache : Option EthGasCacheEntry) (now : ℤ) (u : EthUpstream)
    (solCfg : SolanaFeeConfig) (scache : Option SolFeeCacheEntry) (snow : ℤ)
    (sresp : HeliusOutcome)
    (he1 : ethGasCacheHit cache now = false)
    (he2 : ethCfg.maxFeePerGas = none ∨ ethCfg.maxPriorityFeePerGas = none)
    (he3 : u.etherscan = .error () ∧ u.feeData = .error () ∧ u.gasPrice = .error ())
    (hs1 : solFeeCacheHit scache snow = false)
    (hs2 : sresp.isFailure = true) :
    estimateGasPrice ethCfg cache now u = (ethCfg.minGasPrice, cache) ∧
    estimatePriorityFee solCfg scache snow sresp = (solMinimumFee solCfg, scache) := by
  obtain ⟨hscan, hfee, hgas⟩ := he3
  constructor
  · have hnet : ethNetworkFees ethCfg u = none := by
      unfold ethNetworkFees
      rw [hscan, hfee]
      cases h : ethCfg.hasEtherscan <;> simp
    have heip : ethEipFees ethCfg u = none := by
      unfold ethEipFees
      split
      · rcases he2 with h2 | h2 <;>
          rcases hmf : ethCfg.maxFeePerGas with _ | mf <;>
          rcases hpf : ethCfg.maxPriorityFeePerGas with _ | pf <;>
          simp_all [hnet]
      · rfl
    unfold estimateGasPrice
    rw [he1]
    simp only [Bool.false_eq_true, if_false]
    rw [heip]
    show ethLegacyEstimate ethCfg cache now u = (ethCfg.minGasPrice, cache)
    unfold ethLegacyEstimate
    rw [hgas]
  · unfold estimatePriorityFee
    rw [hs1]
    simp only [Bool.false_eq_true, if_false]
    cases sresp with
    | ok est => simp [HeliusOutcome.isFailure] at hs2
    | throws => split <;> [rfl; split <;> rfl]
    | badStatus => split <;> [rfl; split <;> rfl]
    | rpcError => split <;> [rfl; split <;> rfl]
    | nonNumber => split <;> [rfl; split <;> rfl]

/-- Witness for `fee_estimator_failure_returns_floor`: all upstream
calls throw, caches empty. -/
theorem fee_estimator_failure_returns_floor_witness :
    estimateGasPrice (EthConfig.mk "mainnet" (1/10) none none true) none 0
        (EthUpstream.mk (.error ()) (.error ()) (.error ()) (.error ()) (.error ())) =
      ((1/10 : ℚ), none) ∧
    estimatePriorityFee (SolanaFeeConfig.mk true "apikey" (some 2)) none 0 .throws =
      ((2 : ℚ), none) :=
  fee_estimator_failure_returns_floor
    (EthConfig.mk "mainnet" (1/10) none none true) none 0
    (EthUpstream.mk (.error ()) (.error ()) (.error ()) (.error ()) (.error ()))
    (SolanaFeeConfig.mk true "apikey" (some 2)) none 0 .throws
    rfl (Or.inl rfl) ⟨rfl, rfl, rfl⟩ rfl rfl

/-- C8 counterexample: the spec claims two `estimate()` calls within the
10-second TTL always return bit-identical quotes, the second served from
the cache.  The failure fallback paths return the floor *without writing
the cache* (only the success path caches), so a call whose Helius fetch
threw leaves the cache empty and a second call 1 second later recomputes
and can return a different quote (here `0.1` then `5`). -/
theorem fee_quote_ttl_cache_counterexample :
    solFeeTrace (SolanaFeeConfig.mk true "key" none) none
        [((0 : ℤ), HeliusOutcome.throws), ((1000 : ℤ), HeliusOutcome.ok 5000000)] =
      [1/10, 5] ∧
    ((1000 : ℤ) - 0 < PRIORITY_FEE_CACHE_MS) ∧ ((1/10 : ℚ) ≠ 5) := by
  refine ⟨?_, by decide, by norm_num⟩
  norm_num [solFeeTrace, estimatePriorityFee, solFeeCacheHit, heliusKeyInvalid,
    solMinimumFee, jsOrNum, PRIORITY_FEE_CACHE_MS, max_def]
  rw [if_neg (by decide)]

/-- If a call leaves the cache holding an entry stamped with the call's
own `Date.now()`, the value it returned is that entry's fee (the entry
was either written by this call or was a simultaneous cache hit). -/
lemma estimatePriorityFee_fst_of_snd (cfg : SolanaFeeConfig)
    (cache : Option SolFeeCacheEntry) (t : ℤ) (r : HeliusOutcome) (e : SolFeeCacheEntry)
    (h : (estimatePriorityFee cfg cache t r).2 = some e) (ht : e.timestamp = t) :
    (estimatePriorityFee cfg cache t r).1 = e.fee := by
  have hcontra : solFeeCacheHit cache t = false → cache ≠ some e := by
    intro hmiss hc
    rw [hc] at hmiss
    simp [solFeeCacheHit, ht, PRIORITY_FEE_CACHE_MS] at hmiss
  unfold estimatePriorityFee at h ⊢
  by_cases hhit : solFeeCacheHit cache t = true
  · rw [if_pos hhit] at h ⊢
    have h' : cache = some e := h
    subst h'
    rfl
  · rw [if_neg hhit] at h ⊢
    replace hcontra := hcontra (Bool.not_eq_true _ ▸ hhit)
    by_cases hdis : ¬ cfg.useHeliusRestRPC = true
    · rw [if_pos hdis] at h
      exact absurd h hcontra
    · rw [if_neg hdis] at h ⊢
      by_cases hkey : heliusKeyInvalid cfg.heliusAPIKey = true
      · rw [if_pos hkey] at h
        exact absurd h hcontra
      · rw [if_neg hkey] at h ⊢
        cases r with
        | throws => exact absurd h hcontra
        | badStatus => exact absurd h hcontra
        | rpcError => exact absurd h hcontra
        | nonNumber => exact absurd h hcontra
        | ok est =>
          have h' : some (SolFeeCacheEntry.mk t (max (est / 1000000) (solMinimumFee cfg)))
              = some e := h
          obtain rfl := Option.some.inj h'
          rfl

/-- Legacy-block counterpart of `estimatePriorityFee_fst_of_snd`. -/
lemma ethLegacyEstimate_fst_of_snd (cfg : EthConfig)
    (cache : Option EthGasCacheEntry) (t : ℤ) (u : EthUpstream) (e : EthGasCacheEntry)
    (h : (ethLegacyEstimate cfg cache t u).2 = some e)
    (hcontra : cache ≠ some e) :
    (ethLegacyEstimate cfg cache t u).1 = e.gasPrice := by
  unfold ethLegacyEstimate at h ⊢
  rcases hg : u.gasPrice with err | baseFee
  · rw [hg] at h
    exact absurd h hcontra
  · rw [hg] at h
    rcases hpr : (if cfg.network = "mainnet" then u.rpcPriorityFee else Except.ok 0)
      with err | prio
    · rw [hpr] at h
      exact absurd h hcontra
    · rw [hpr] at h
      have h' : some (EthGasCacheEntry.mk t
          ((if ((baseFee + prio : ℤ) : ℚ) < cfg.minGasPrice * 10 ^ 9
            then cfg.minGasPrice * 10 ^ 9 else ((baseFee + prio : ℤ) : ℚ)) / 10 ^ 9)
          none none false) = some e := h
      obtain rfl := Option.some.inj h'
      rfl

/-- Ethereum counterpart of `estimatePriorityFee_fst_of_snd`. -/
lemma estimateGasPrice_fst_of_snd (cfg : EthConfig)
    (cache : Option EthGasCacheEntry) (t : ℤ) (u : EthUpstream) (e : EthGasCacheEntry)
    (h : (estimateGasPrice cfg cache t u).2 = some e) (ht : e.timestamp = t) :
    (estimateGasPrice cfg cache t u).1 = e.gasPrice := by
  have hcontra : ethGasCacheHit cache t = false → cache ≠ some e := by
    intro hmiss hc
    rw [hc] at hmiss
    simp [ethGasCacheHit, ht, GAS_PRICE_CACHE_MS] at hmiss
  unfold estimateGasPrice at h ⊢
  by_cases hhit : ethGasCacheHit cache t = true
  · rw [if_pos hhit] at h ⊢
    have h' : cache = some e := h
    subst h'
    rfl
  · rw [if_neg hhit] at h ⊢
    replace hcontra := hcontra (Bool.not_eq_true _ ▸ hhit)
    rcases hfees : ethEipFees cfg u with _ | ⟨mf, pf⟩
    · rw [hfees] at h
      exact ethLegacyEstimate_fst_of_snd cfg cache t u e h hcontra
    · rw [hfees] at h
      have h' : some (EthGasCacheEntry.mk t
          (if mf < cfg.minGasPrice then cfg.minGasPrice else mf)
          (some (if mf < cfg.minGasPrice then cfg.minGasPrice else mf))
          (some pf) true) = some e := h
      obtain rfl := Option.some.inj h'
      rfl

/-- No code path of either estimator ever clears the cache: the cache is
only read or overwritten, never invalidated by an explicit event. -/
lemma estimatePriorityFee_never_clears (cfg : SolanaFeeConfig)
    (cache : Option SolFeeCacheEntry) (t : ℤ) (r : HeliusOutcome)
    (h : (estimatePriorityFee cfg cache t r).2 = none) : cache = none := by
  unfold estimatePriorityFee at h
  by_cases hhit : solFeeCacheHit cache t = true
  · rw [if_pos hhit] at h
    exact h
  · rw [if_neg hhit] at h
    by_cases hdis : ¬ cfg.useHeliusRestRPC = true
    · rw [if_pos hdis] at h
      exact h
    · rw [if_neg hdis] at h
      by_cases hkey : heliusKeyInvalid cfg.heliusAPIKey = true
      · rw [if_pos hkey] at h
        exact h
      · rw [if_neg hkey] at h
        cases r with
        | throws => exact h
        | badStatus => exact h
        | rpcError => exact h
        | nonNumber => exact h
        | ok est => exact Option.noConfusion h

/-- Legacy-block counterpart of `estimatePriorityFee_never_clears`. -/
lemma ethLegacyEstimate_never_clears (cfg : EthConfig)
    (cache : Option EthGasCacheEntry) (t : ℤ) (u : EthUpstream)
    (h : (ethLegacyEstimate cfg cache t u).2 = none) : cache = none := by
  unfold ethLegacyEstimate at h
  rcases hg : u.gasPrice with err | baseFee
  · rw [hg] at h
    exact h
  · rw [hg] at h
    rcases hpr : (if cfg.network = "mainnet" then u.rpcPriorityFee else Except.ok 0)
      with err | prio
    · rw [hpr] at h
      exact h
    · rw [hpr] at h
      exact Option.noConfusion h

/-- Ethereum counterpart of `estimatePriorityFee_never_clears`. -/
lemma estimateGasPrice_never_clears (cfg : EthConfig)
    (cache : Option EthGasCacheEntry) (t : ℤ) (u : EthUpstream)
    (h : (estimateGasPrice cfg cache t u).2 = none) : cache = none := by
  unfold estimateGasPrice at h
  by_cases hhit : ethGasCacheHit cache t = true
  · rw [if_pos hhit] at h
    exact h
  · rw [if_neg hhit] at h
    rcases hfees : ethEipFees cfg u with _ | ⟨mf, pf⟩
    · rw [hfees] at h
      exact ethLegacyEstimate_never_clears cfg cache t u h
    · rw [hfees] at h
      exact Option.noConfusion h

/-- C8 (amended): two calls within the 10-second TTL return identical
quotes *provided the first call actually cached a quote* (which the
failure fallback paths do not do); the second call then serves the
cached value without recomputation (its result does not depend on its
own upstream outcome, and the cache is left unchanged).  The cache is
invalidated by TTL expiry only: no code path of either estimator ever
clears it. -/
theorem fee_quote_ttl_cache_amended
    (solCfg : SolanaFeeConfig) (scache : Option SolFeeCacheEntry)
    (t1 t2 : ℤ) (r1 r2 : HeliusOutcome) (e : SolFeeCacheEntry)
    (h1 : (estimatePriorityFee solCfg scache t1 r1).2 = some e)
    (h1t : e.timestamp = t1) (h2 : t2 - t1 < PRIORITY_FEE_CACHE_MS)
    (ethCfg : EthConfig) (ecache : Option EthGasCacheEntry)
    (s1 s2 : ℤ) (u1 u2 : EthUpstream) (f : EthGasCacheEntry)
    (g1 : (estimateGasPrice ethCfg ecache s1 u1).2 = some f)
    (g1t : f.timestamp = s1) (g2 : s2 - s1 < GAS_PRICE_CACHE_MS) :
    estimatePriorityFee solCfg (some e) t2 r2 =
      ((estimatePriorityFee solCfg scache t1 r1).1, some e) ∧
    estimateGasPrice ethCfg (some f) s2 u2 =
      ((estimateGasPrice ethCfg ecache s1 u1).1, some f) ∧
    (∀ cfg cache now resp,
      (estimatePriorityFee cfg cache now resp).2 = none → cache = none) ∧
    (∀ cfg cache now u,
      (estimateGasPrice cfg cache now u).2 = none → cache = none) := by
  have hhit2 : solFeeCacheHit (some e) t2 = true := by
    simp [solFeeCacheHit, h1t]
    exact h2
  have ghit2 : ethGasCacheHit (some f) s2 = true := by
    simp [ethGasCacheHit, g1t]
    exact g2
  refine ⟨?_, ?_, estimatePriorityFee_never_clears, estimateGasPrice_never_clears⟩
  · rw [estimatePriorityFee_fst_of_snd solCfg scache t1 r1 e h1 h1t]
    unfold estimatePriorityFee
    rw [if_pos hhit2]
    rfl
  · rw [estimateGasPrice_fst_of_snd ethCfg ecache s1 u1 f g1 g1t]
    unfold estimateGasPrice
    rw [if_pos ghit2]
    rfl

/-- Witness for `fee_quote_ttl_cache_amended`: a successful Solana call
at `t=0` caching fee `3`, re-read at `t=5000`; a successful Etherscan
EIP-1559 call at `t=0` caching `5` GWEI, re-read at `t=5000`. -/
theorem fee_quote_ttl_cache_amended_witness :
    estimatePriorityFee (SolanaFeeConfig.mk true "key" none)
        (some (SolFeeCacheEntry.mk 0 3)) 5000 HeliusOutcome.throws =
      ((estimatePriorityFee (SolanaFeeConfig.mk true "key" none) none 0
        (HeliusOutcome.ok 3000000)).1, some (SolFeeCacheEntry.mk 0 3)) ∧
    estimateGasPrice (EthConfig.mk "mainnet" (1/10) none none true)
        (some (EthGasCacheEntry.mk 0 5 (some 5) (some 1) true)) 5000
        (EthUpstream.mk (.error ()) (.error ()) (.error ()) (.error ()) (.error ())) =
      ((estimateGasPrice (EthConfig.mk "mainnet" (1/10) none none true) none 0
        (EthUpstream.mk (.ok (5, 1)) (.error ()) (.error ()) (.error ()) (.error ()))).1,
        some (EthGasCacheEntry.mk 0 5 (some 5) (some 1) true)) ∧
    (∀ cfg cache now resp,
      (estimatePriorityFee cfg cache now resp).2 = none → cache = none) ∧
    (∀ cfg cache now u,
      (estimateGasPrice cfg cache now u).2 = none → cache = none) :=
  fee_quote_ttl_cache_amended
    (SolanaFeeConfig.mk true "key" none) none 0 5000
    (HeliusOutcome.ok 3000000) HeliusOutcome.throws (SolFeeCacheEntry.mk 0 3)
    (by norm_num [estimatePriorityFee, solFeeCacheHit, heliusKeyInvalid, solMinimumFee,
      jsOrNum, max_def]; rw [if_neg (by decide)]) rfl (by decide)
    (EthConfig.mk "mainnet" (1/10) none none true) none 0 5000
    (EthUpstream.mk (.ok (5, 1)) (.error ()) (.error ()) (.error ()) (.error ()))
    (EthUpstream.mk (.error ()) (.error ()) (.error ()) (.error ()) (.error ()))
    (EthGasCacheEntry.mk 0 5 (some 5) (some 1) true)
    (by norm_num [estimateGasPrice, ethGasCacheHit, ethNetworkFees, supportsEIP1559, ethEipFees]) rfl
    (by decide)

/-! ## Solana submission and confirmation engine

Model of `Solana._sendAndConfirmRawTransaction` (polling branch).  The
serialized transaction is a byte list; each iteration of the bounded
poll loop consumes one `PollEnv` describing what the RPC returned
during that iteration (with `throws` flags for calls that raised).  The
function also returns the list of payloads handed to
`sendRawTransaction`, so re-broadcast behaviour is observable. -/

/-- The `getSignatureStatuses` value for the signature:
`err` is the truthiness of `status.err`, `confirmed` is
`confirmationStatus === 'confirmed' || confirmationStatus === 'finalized'`. -/
structure SigStatus where
  err : Bool
  confirmed : Bool
deriving Repr, DecidableEq

/-- Transaction metadata (`txData.meta`). -/
structure SolTxMeta where
  /-- truthiness of `meta.err` -/
  err : Bool
  /-- `meta.fee` in lamports -/
  fee : ℕ
deriving Repr, DecidableEq

/-- A `getTransaction` result (`txData`); `meta` can be absent. -/
structure SolTxData where
  meta : Option SolTxMeta
deriving Repr, DecidableEq

/-- What the RPC did during one iteration of the poll loop. -/
structure PollEnv where
  /-- `getSignatureStatuses` threw -/
  statusThrows : Bool
  /-- `statuses.value[0]` (`none` = signature not yet seen) -/
  status : Option SigStatus
  /-- `getTransaction` threw -/
  txDataThrows : Bool
  /-- `getTransaction` result (`none` = null) -/
  txData : Option SolTxData
  /-- `getBlockHeight` threw -/
  heightThrows : Bool
  /-- `getBlockHeight` result -/
  blockHeight : ℤ
deriving Repr, DecidableEq

/-- Outcome of one iteration of the poll loop. -/
inductive PollOutcome where
  /-- `status.err` seen: `return { confirmed: false, signature, txData: null }` -/
  | failed
  /-- confirmed at sufficient depth: `return { confirmed: true, signature, txData }` -/
  | confirmedOut (txData : Option SolTxData)
  /-- keep polling; `rebroadcast` records whether `sendRawTransaction`
  was invoked again this iteration (blockhash expired) -/
  | nextIter (rebroadcast : Bool)
deriving Repr, DecidableEq

/-- One iteration of the `while (!confirmed && attempts < maxPollingAttempts)`
body.  Any throw inside the iteration is caught (`catch (pollingError)`)
and polling continues; a failed re-broadcast is swallowed by its own
inner `catch`. -/
def pollIter (lastValidBlockHeight : ℤ) (env : PollEnv) : PollOutcome :=
  if env.statusThrows then .nextIter false
  else
    match env.status with
    | some st =>
      if st.err then .failed
      else if st.confirmed then
        if env.txDataThrows then .nextIter false
        else .confirmedOut env.txData
      else
        -- fall through to the blockhash-expiry check
        if env.heightThrows then .nextIter false
        else .nextIter (lastValidBlockHeight < env.blockHeight)
    | none =>
      if env.heightThrows then .nextIter false
      else .nextIter (lastValidBlockHeight < env.blockHeight)

/-- The `{ confirmed, txData }` part of the value
`_sendAndConfirmRawTransaction` resolves with. -/
structure ConfirmResult where
  confirmed : Bool
  txData : Option SolTxData
deriving Repr, DecidableEq

/-- Observable outcome of a poll-loop run: final result, the payloads
passed to `sendRawTransaction` inside the loop (re-broadcasts), and the
number of loop iterations executed. -/
structure PollRun where
  result : ConfirmResult
  broadcasts : List (List ℕ)
  attempts : ℕ
deriving Repr, DecidableEq

/-- Iterations beyond the supplied script are modelled as iterations
whose RPC calls all throw (a fully unresponsive network). -/
def throwingPollEnv : PollEnv := ⟨true, none, true, none, true, 0⟩

/-- `maxPollingAttempts = 30` (30 attempts × 2 s = 60 s total timeout). -/
def maxPollingAttempts : ℕ := 30

/-- The bounded poll loop of `_sendAndConfirmRawTransaction`, with the
re-broadcast payload fixed to the `serializedTx` argument `tx`. -/
def runPoll (tx : List ℕ) (lvbh : ℤ) : ℕ → List PollEnv → PollRun
  | 0, _ => ⟨⟨false, none⟩, [], 0⟩
  | fuel + 1, envs =>
    let env := envs.headD throwingPollEnv
    match pollIter lvbh env with
    | .failed => ⟨⟨false, none⟩, [], 1⟩
    | .confirmedOut td => ⟨⟨true, td⟩, [], 1⟩
    | .nextIter rb =>
      let rest := runPoll tx lvbh fuel envs.tail
      ⟨rest.result, (if rb then [tx] else []) ++ rest.broadcasts, rest.attempts + 1⟩

/-- `Solana._sendAndConfirmRawTransaction` (standard-RPC polling branch):
initial broadcast of `serializedTx` followed by the bounded poll loop.
`sendThrows` models the outer `catch (sendError)`, which resolves with
`{ confirmed: false, txData: null }`.  Returns the confirmation result
together with every payload handed to the transport. -/
def sendAndConfirmRaw (tx : List ℕ) (lvbh : ℤ) (sendThrows : Bool)
    (envs : List PollEnv) : ConfirmResult × List (List ℕ) :=
  if sendThrows then (⟨false, none⟩, [])
  else
    let r := runPoll tx lvbh maxPollingAttempts envs
    (r.result, tx :: r.broadcasts)

/-- Every payload the poll loop re-broadcasts is the `tx` argument. -/
lemma runPoll_broadcasts_replicate (tx : List ℕ) (lvbh : ℤ) :
    ∀ fuel envs, ∃ n, (runPoll tx lvbh fuel envs).broadcasts = List.replicate n tx := by
  intro fuel
  induction fuel with
  | zero => intro envs; exact ⟨0, rfl⟩
  | succ fuel ih =>
    intro envs
    simp only [runPoll]
    cases hout : pollIter lvbh (envs.headD throwingPollEnv) with
    | failed => exact ⟨0, rfl⟩
    | confirmedOut td => exact ⟨0, rfl⟩
    | nextIter rb =>
      obtain ⟨n, hn⟩ := ih envs.tail
      cases rb with
      | false => exact ⟨n, by simpa using hn⟩
      | true => exact ⟨n + 1, by simp [hn, List.replicate_succ]⟩

/-- C1: every payload handed to the transport by the submission engine —
the first broadcast and every staleness re-broadcast after the validity
window (`lastValidBlockHeight`) has passed without confirmation — is the
byte-identical `serializedTx`: the broadcast list is a replication of
the original signed payload, hence same nonce/blockhash and signature,
with no re-signing anywhere in the loop. -/
theorem rebroadcast_payload_byte_identical (tx : List ℕ) (lvbh : ℤ)
    (sendThrows : Bool) (envs : List PollEnv) :
    ∃ n, (sendAndConfirmRaw tx lvbh sendThrows envs).2 = List.replicate n tx := by
  unfold sendAndConfirmRaw
  by_cases hs : sendThrows
  · exact ⟨0, by simp [hs]⟩
  · obtain ⟨n, hn⟩ := runPoll_broadcasts_replicate tx lvbh maxPollingAttempts envs
    refine ⟨n + 1, ?_⟩
    simp only [hs, Bool.false_eq_true, if_false, hn]
    rfl

/-- C6: the confirmation poll loop always terminates within its bounded
attempt budget (30 attempts — the model is a total function, so no
unbounded hang is expressible): (1) it executes at most 30 iterations;
(2) a network error during a single poll attempt (`getSignatureStatuses`
throwing) is swallowed and the loop simply retries with one attempt
consumed; (3) when every scripted iteration is non-terminal the budget
is exhausted and the caller receives `{ confirmed: false, txData: null }`
— a value, not a raised exception. -/
theorem poll_loop_bounded_budget (tx : List ℕ) (lvbh : ℤ) (envs : List PollEnv) :
    (runPoll tx lvbh maxPollingAttempts envs).attempts ≤ maxPollingAttempts ∧
    (∀ env rest fuel, env.statusThrows = true →
      runPoll tx lvbh (fuel + 1) (env :: rest) =
        ⟨(runPoll tx lvbh fuel rest).result,
          (runPoll tx lvbh fuel rest).broadcasts,
          (runPoll tx lvbh fuel rest).attempts + 1⟩) ∧
    ((∀ env ∈ envs, ∃ rb, pollIter lvbh env = .nextIter rb) →
      (runPoll tx lvbh maxPollingAttempts envs).result = ⟨false, none⟩) := by
  have hattempts : ∀ fuel envs', (runPoll tx lvbh fuel envs').attempts ≤ fuel := by
    intro fuel
    induction fuel with
    | zero => intro envs'; exact le_refl 0
    | succ fuel ih =>
      intro envs'
      simp only [runPoll]
      cases hout : pollIter lvbh (envs'.headD throwingPollEnv) with
      | failed => exact Nat.succ_le_succ (Nat.zero_le _)
      | confirmedOut td => exact Nat.succ_le_succ (Nat.zero_le _)
      | nextIter rb => exact Nat.succ_le_succ (ih envs'.tail)
  have hexhaust : ∀ fuel envs',
      (∀ env ∈ envs', ∃ rb, pollIter lvbh env = .nextIter rb) →
      (runPoll tx lvbh fuel envs').result = ⟨false, none⟩ := by
    intro fuel
    induction fuel with
    | zero => intro envs' _; rfl
    | succ fuel ih =>
      intro envs' hall
      have hhead : ∃ rb, pollIter lvbh (envs'.headD throwingPollEnv) = .nextIter rb := by
        cases envs' with
        | nil => exact ⟨false, rfl⟩
        | cons env rest => exact hall env (List.mem_cons_self env rest)
      obtain ⟨rb, hrb⟩ := hhead
      simp only [runPoll, hrb]
      have htail : ∀ env ∈ envs'.tail, ∃ rb, pollIter lvbh env = .nextIter rb := by
        intro env henv
        exact hall env (List.mem_of_mem_tail henv)
      exact ih envs'.tail htail
  refine ⟨hattempts _ _, ?_, hexhaust _ _⟩
  intro env rest fuel hth
  have hpoll : pollIter lvbh ((env :: rest).headD throwingPollEnv) = .nextIter false := by
    simp only [List.headD_cons, pollIter, hth, if_true]
  simp only [runPoll, hpoll, List.tail_cons, List.nil_append, Bool.false_eq_true, if_false]

/-- Witness for `poll_loop_bounded_budget`: the empty script (an
unresponsive network for all 30 attempts) exhausts the budget and yields
a non-confirmed value, and a single throwing iteration consumes exactly
one attempt. -/
theorem poll_loop_bounded_budget_witness :
    (runPoll [1] 0 maxPollingAttempts []).result = ⟨false, none⟩ ∧
    runPoll [1] 0 1 [throwingPollEnv] =
      ⟨(runPoll [1] 0 0 []).result, (runPoll [1] 0 0 []).broadcasts,
        (runPoll [1] 0 0 []).attempts + 1⟩ :=
  ⟨(poll_loop_bounded_budget [1] 0 []).2.2
      (by intro env henv; exact absurd henv (List.not_mem_nil env)),
    (poll_loop_bounded_budget [1] 0 []).2.1 throwingPollEnv [] 0 rfl⟩

/-! ## Settlement extraction

Model of `Solana.extractBalanceChangesAndFee`, `Solana.getFee`,
`Solana.handleConfirmation`, `Ethereum.handleTransactionConfirmation`
and `formatTokenAmount` (etcSwap.utils.ts). -/

/-- `LAMPORT_TO_SOL = 1 / Math.pow(10, 9)`. -/
def LAMPORT_TO_SOL : ℚ := 1 / 10 ^ 9

/-- The native-SOL wrapped mint literal used by the extractor. -/
def WSOL : String := "So11111111111111111111111111111111111111112"

/-- `uiTokenAmount` of a pre/post token balance entry as delivered by the
RPC: the raw smallest-unit integer (`amount`, a decimal string) and the
node-computed, already-scaled `uiAmount` (a double in the real payload,
possibly null). -/
structure UiTokenAmount where
  amount : ℕ
  uiAmount : Option ℚ
  decimals : ℕ
deriving Repr, DecidableEq

/-- One entry of `meta.preTokenBalances` / `meta.postTokenBalances`. -/
structure TokenBalanceEntry where
  mint : String
  owner : String
  uiTokenAmount : UiTokenAmount
deriving Repr, DecidableEq

/-- The `meta` of a parsed transaction. -/
structure ParsedTxMeta where
  fee : ℕ
  preBalances : List ℕ
  postBalances : List ℕ
  preTokenBalances : List TokenBalanceEntry
  postTokenBalances : List TokenBalanceEntry
deriving Repr, DecidableEq

/-- A `getParsedTransaction` result; `accountKeys` holds the pubkeys of
`transaction.message.accountKeys`. -/
structure ParsedTx where
  meta : Option ParsedTxMeta
  accountKeys : List String
deriving Repr, DecidableEq

/-- `find(b => b.mint === token && b.owner === owner)?.uiTokenAmount.uiAmount || 0`:
the extractor reads only the node-scaled `uiAmount` field, never the raw
`amount`. -/
def tokenBalanceLookup (entries : List TokenBalanceEntry)
    (token owner : String) : ℚ :=
  match entries.find? (fun b => b.mint == token && b.owner == owner) with
  | some b => b.uiTokenAmount.uiAmount.getD 0
  | none => 0

/-- `Solana.extractBalanceChangesAndFee`.  Native SOL deltas come from
the raw lamport `preBalances`/`postBalances` arrays (out-of-range
indices default to `0`; the theorems only use in-range inputs); SPL
deltas are differences of the pre-scaled `uiAmount` values.  A missing
transaction throws (`Transaction ... not found`). -/
def extractBalanceChangesAndFee (txDetails : Option ParsedTx) (owner : String)
    (tokens : List String) : Except Unit (List ℚ × ℚ) :=
  match txDetails with
  | none => .error ()
  | some tx =>
    -- `fee = (txDetails.meta?.fee || 0) * LAMPORT_TO_SOL`
    let fee : ℚ := ((tx.meta.map ParsedTxMeta.fee).getD 0 : ℚ) * LAMPORT_TO_SOL
    let preBalances := (tx.meta.map ParsedTxMeta.preBalances).getD []
    let postBalances := (tx.meta.map ParsedTxMeta.postBalances).getD []
    let preTokenBalances := (tx.meta.map ParsedTxMeta.preTokenBalances).getD []
    let postTokenBalances := (tx.meta.map ParsedTxMeta.postTokenBalances).getD []
    let balanceChanges := tokens.map fun token =>
      if token = WSOL then
        match tx.accountKeys.findIdx? (fun key => key == owner) with
        | none => 0
        | some accountIndex =>
          let lamportChange : ℤ :=
            (postBalances.getD accountIndex 0 : ℤ) - (preBalances.getD accountIndex 0 : ℤ)
          (lamportChange : ℚ) * LAMPORT_TO_SOL
      else
        let preBalance := tokenBalanceLookup preTokenBalances token owner
        let postBalance := tokenBalanceLookup postTokenBalances token owner
        postBalance - preBalance
    .ok (balanceChanges, fee)

/-- `formatTokenAmount` (etcSwap.utils.ts): the raw smallest-unit amount
divided by `10^decimals`. -/
def formatTokenAmount (amount : ℚ) (decimals : ℕ) : ℚ :=
  amount / 10 ^ decimals

/-- `Solana.getFee`: `(txData.meta.fee || 0) * LAMPORT_TO_SOL`, `0` when
`txData?.meta` is absent. -/
def getFee (txData : Option SolTxData) : ℚ :=
  match txData with
  | none => 0
  | some d =>
    match d.meta with
    | none => 0
    | some m => (m.fee : ℚ) * LAMPORT_TO_SOL

/-- `side?: 'BUY' | 'SELL'`. -/
inductive TradeSide where
  | buy
  | sell
deriving Repr, DecidableEq

/-- The `data` payload of a confirmation response. -/
structure SwapResultData where
  tokenIn : String
  tokenOut : String
  amountIn : ℚ
  amountOut : ℚ
  fee : ℚ
  baseTokenBalanceChange : ℚ
  quoteTokenBalanceChange : ℚ
deriving Repr, DecidableEq

/-- A `{ signature, status, data? }` confirmation response
(status `1` = confirmed, `0` = pending, `-1` = failed). -/
structure SwapConfirmation where
  signature : String
  status : ℤ
  data : Option SwapResultData
deriving Repr, DecidableEq

/-- `Solana.handleConfirmation`.  The confirmed branch re-fetches the
parsed transaction through `extractBalanceChangesAndFee` (the
`txDetails` parameter) and propagates its exception. -/
def handleConfirmation (signature : String) (confirmed : Bool)
    (txData : Option SolTxData) (txDetails : Option ParsedTx)
    (tokenIn tokenOut walletAddress : String) (side : Option TradeSide) :
    Except Unit SwapConfirmation :=
  if confirmed && txData.isSome then
    match extractBalanceChangesAndFee txDetails walletAddress [tokenIn, tokenOut] with
    | .error e => .error e
    | .ok (balanceChanges, fee) =>
      let inputTokenBalanceChange := balanceChanges.getD 0 0
      let outputTokenBalanceChange := balanceChanges.getD 1 0
      let amountIn := |inputTokenBalanceChange|
      let amountOut := |outputTokenBalanceChange|
      let baseTokenBalanceChange :=
        match side with
        | some .sell => inputTokenBalanceChange
        | some .buy => outputTokenBalanceChange
        | none => inputTokenBalanceChange
      let quoteTokenBalanceChange :=
        match side with
        | some .sell => outputTokenBalanceChange
        | some .buy => inputTokenBalanceChange
        | none => outputTokenBalanceChange
      .ok ⟨signature, 1, some ⟨tokenIn, tokenOut, amountIn, amountOut, fee,
        baseTokenBalanceChange, quoteTokenBalanceChange⟩⟩
  else if txData.isSome && ! confirmed then
    .ok ⟨signature, -1, some ⟨tokenIn, tokenOut, 0, 0, getFee txData, 0, 0⟩⟩
  else
    .ok ⟨signature, 0, none⟩

/-- Tail of `Solana.sendAndConfirmTransaction`: succeed with the actual
fee only when `confirmed && txData`, otherwise throw
(`Transaction failed to confirm after ... attempts`). -/
def sendAndConfirmOutcome (signature : String) (result : ConfirmResult) :
    Except Unit (String × ℚ) :=
  if result.confirmed && result.txData.isSome then
    .ok (signature, getFee result.txData)
  else
    .error ()

/-- An EVM transaction receipt (the fields the handler reads);
`status` is `0` (reverted), `1` (success) or absent. -/
structure EthTxReceipt where
  transactionHash : String
  status : Option ℕ
  gasUsed : ℕ
  effectiveGasPrice : ℕ
deriving Repr, DecidableEq

/-- The receipt-derived network fee of the success branch:
`gasUsed.mul(effectiveGasPrice) / 1e18` (exact over ℚ). -/
def ethReceiptFee (r : EthTxReceipt) : ℚ :=
  ((r.gasUsed * r.effectiveGasPrice : ℕ) : ℚ) / 10 ^ 18

/-- `Ethereum.handleTransactionConfirmation`. -/
def handleTransactionConfirmation (txReceipt : Option EthTxReceipt)
    (inputToken outputToken : String) (expectedAmountIn expectedAmountOut : ℚ)
    (side : Option TradeSide) : SwapConfirmation :=
  match txReceipt with
  | none => ⟨"", 0, none⟩
  | some r =>
    if r.status = some 0 then
      -- transaction failed on-chain
      ⟨r.transactionHash, -1, some ⟨inputToken, outputToken, 0, 0, 0, 0, 0⟩⟩
    else if r.status = some 1 then
      let fee := ethReceiptFee r
      let baseTokenBalanceChange :=
        match side with
        | some .sell => -expectedAmountIn
        | some .buy => expectedAmountOut
        | none => -expectedAmountIn
      let quoteTokenBalanceChange :=
        match side with
        | some .sell => expectedAmountOut
        | some .buy => -expectedAmountIn
        | none => expectedAmountOut
      ⟨r.transactionHash, 1, some ⟨inputToken, outputToken, expectedAmountIn,
        expectedAmountOut, fee, baseTokenBalanceChange, quoteTokenBalanceChange⟩⟩
    else
      -- status unclear, treat as pending
      ⟨r.transactionHash, 0, some ⟨inputToken, outputToken, 0, 0, 0, 0, 0⟩⟩

/-- C2 counterexample: the SPL-token branch of the settlement extractor
does not compute deltas in the smallest indivisible unit: it subtracts
the RPC's pre-scaled `uiAmount` fields and never reads the raw `amount`.
Here the raw on-chain delta is `r = 10^17 + 1` on a 6-decimal asset, and
the node-supplied `uiAmount` is `10^11` (exactly what rounding
`(10^17+1)/10^6` to an IEEE double produces), so the extractor reports
`10^11`, not `r / 10^6`. -/
theorem settlement_smallest_unit_counterexample :
    extractBalanceChangesAndFee
        (some ⟨some ⟨0, [], [], [],
          [⟨"MINT", "OWN", ⟨100000000000000001, some 100000000000, 6⟩⟩]⟩, []⟩)
        "OWN" ["MINT"] =
      .ok ([(100000000000 : ℚ)], 0) ∧
    ((100000000000 : ℚ) ≠ ((100000000000000001 : ℚ) - 0) / 10 ^ 6) := by
  constructor
  · norm_num [extractBalanceChangesAndFee, tokenBalanceLookup, WSOL, LAMPORT_TO_SOL,
      List.find?]
    decide
  · norm_num

/-- C2 (amended): the native-SOL branch and the EVM-side
`formatTokenAmount` do compute in the smallest indivisible unit first
and then scale by `10^-decimals`; the SPL-token branch instead reports
the difference of the RPC's pre-scaled `uiAmount` values, which equals
the raw delta `r / 10^d` exactly when (and only to the extent that) the
supplied `uiAmount`s are the exactly-scaled raw amounts. -/
theorem settlement_smallest_unit_amended
    (tx : ParsedTx) (m : ParsedTxMeta) (owner token : String) (d : ℕ)
    (i : ℕ) (pe po : TokenBalanceEntry)
    (hm : tx.meta = some m)
    (hidx : tx.accountKeys.findIdx? (fun key => key == owner) = some i)
    (htok : ¬ token = WSOL)
    (hpe : m.preTokenBalances.find?
      (fun b => b.mint == token && b.owner == owner) = some pe)
    (hpo : m.postTokenBalances.find?
      (fun b => b.mint == token && b.owner == owner) = some po)
    (hpeUi : pe.uiTokenAmount.uiAmount = some ((pe.uiTokenAmount.amount : ℚ) / 10 ^ d))
    (hpoUi : po.uiTokenAmount.uiAmount = some ((po.uiTokenAmount.amount : ℚ) / 10 ^ d))
    (r : ℚ) (d' : ℕ) :
    extractBalanceChangesAndFee (some tx) owner [WSOL] =
      .ok ([(((m.postBalances.getD i 0 : ℤ) - (m.preBalances.getD i 0 : ℤ) : ℤ) : ℚ) / 10 ^ 9],
        (m.fee : ℚ) / 10 ^ 9) ∧
    extractBalanceChangesAndFee (some tx) owner [token] =
      .ok ([((po.uiTokenAmount.amount : ℚ) - (pe.uiTokenAmount.amount : ℚ)) / 10 ^ d],
        (m.fee : ℚ) / 10 ^ 9) ∧
    formatTokenAmount r d' = r / 10 ^ d' := by
  refine ⟨?_, ?_, rfl⟩
  · unfold extractBalanceChangesAndFee
    simp only [hm, Option.map_some', Option.getD_some, List.map_cons, List.map_nil,
      if_pos rfl, if_true, hidx, LAMPORT_TO_SOL, Except.ok.injEq, Prod.mk.injEq,
      List.cons.injEq, and_true]
    exact ⟨mul_one_div _ _, mul_one_div _ _⟩
  · unfold extractBalanceChangesAndFee
    simp only [hm, Option.map_some', Option.getD_some, List.map_cons, List.map_nil,
      if_neg htok, tokenBalanceLookup, hpe, hpo, hpeUi, hpoUi,
      LAMPORT_TO_SOL, Except.ok.injEq, Prod.mk.injEq, List.cons.injEq, and_true]
    exact ⟨div_sub_div_same _ _ _, mul_one_div _ _⟩

/-- Witness for `settlement_smallest_unit_amended`: a transaction with
the owner at account index 0, lamport balances 5 → 7, and one 6-decimal
SPL token moving from raw 1 to raw 4 with exactly-scaled `uiAmount`s. -/
theorem settlement_smallest_unit_amended_witness :
    extractBalanceChangesAndFee
        (some ⟨some ⟨9, [5], [7],
          [⟨"MINT", "OWN", ⟨1, some ((1 : ℚ) / 10 ^ 6), 6⟩⟩],
          [⟨"MINT", "OWN", ⟨4, some ((4 : ℚ) / 10 ^ 6), 6⟩⟩]⟩, ["OWN"]⟩)
        "OWN" [WSOL] =
      .ok ([((((7 : ℤ) - (5 : ℤ) : ℤ)) : ℚ) / 10 ^ 9], (9 : ℚ) / 10 ^ 9) ∧
    extractBalanceChangesAndFee
        (some ⟨some ⟨9, [5], [7],
          [⟨"MINT", "OWN", ⟨1, some ((1 : ℚ) / 10 ^ 6), 6⟩⟩],
          [⟨"MINT", "OWN", ⟨4, some ((4 : ℚ) / 10 ^ 6), 6⟩⟩]⟩, ["OWN"]⟩)
        "OWN" ["MINT"] =
      .ok ([((4 : ℚ) - (1 : ℚ)) / 10 ^ 6], (9 : ℚ) / 10 ^ 9) ∧
    formatTokenAmount 3 2 = 3 / 10 ^ 2 :=
  settlement_smallest_unit_amended
    ⟨some ⟨9, [5], [7],
      [⟨"MINT", "OWN", ⟨1, some ((1 : ℚ) / 10 ^ 6), 6⟩⟩],
      [⟨"MINT", "OWN", ⟨4, some ((4 : ℚ) / 10 ^ 6), 6⟩⟩]⟩, ["OWN"]⟩
    ⟨9, [5], [7],
      [⟨"MINT", "OWN", ⟨1, some ((1 : ℚ) / 10 ^ 6), 6⟩⟩],
      [⟨"MINT", "OWN", ⟨4, some ((4 : ℚ) / 10 ^ 6), 6⟩⟩]⟩
    "OWN" "MINT" 6 0
    ⟨"MINT", "OWN", ⟨1, some ((1 : ℚ) / 10 ^ 6), 6⟩⟩
    ⟨"MINT", "OWN", ⟨4, some ((4 : ℚ) / 10 ^ 6), 6⟩⟩
    rfl rfl (by decide) rfl rfl
    rfl rfl 3 2

/-- C4 counterexample: for a receipt that reverted on-chain
(`status: 0`, `gasUsed = 21000`, `effectiveGasPrice = 10^9` wei) the
EVM handler returns status `-1` with **fee 0**, although the fee
actually computable from that receipt (`gasUsed × effectiveGasPrice`,
as the success branch computes it) is `21/1000 ≠ 0`: the networkFee of
a reverted transaction is not computed from the receipt. -/
theorem settlement_reverted_fee_counterexample :
    (handleTransactionConfirmation (some ⟨"0xh", some 0, 21000, 1000000000⟩)
        "TIN" "TOUT" 1 2 none).status = -1 ∧
    (handleTransactionConfirmation (some ⟨"0xh", some 0, 21000, 1000000000⟩)
        "TIN" "TOUT" 1 2 none).data =
      some ⟨"TIN", "TOUT", 0, 0, 0, 0, 0⟩ ∧
    ethReceiptFee ⟨"0xh", some 0, 21000, 1000000000⟩ ≠ 0 := by
  refine ⟨rfl, rfl, ?_⟩
  norm_num [ethReceiptFee]

/-- C4 (amended): settlement extraction on a reverted transaction
returns status Failed (`-1`) with all balance deltas zero on both
adapters; the networkFee is computed from the transaction metadata on
the Solana path (`getFee`), while the EVM path reports a networkFee of
`0` for reverted transactions. -/
theorem settlement_reverted_amended
    (r : EthTxReceipt) (ti tOut : String) (ein eout : ℚ) (side : Option TradeSide)
    (hr : r.status = some 0)
    (sig : String) (dta : SolTxData) (txDetails : Option ParsedTx)
    (sti sto wa : String) (sside : Option TradeSide) :
    handleTransactionConfirmation (some r) ti tOut ein eout side =
      ⟨r.transactionHash, -1, some ⟨ti, tOut, 0, 0, 0, 0, 0⟩⟩ ∧
    handleConfirmation sig false (some dta) txDetails sti sto wa sside =
      .ok ⟨sig, -1, some ⟨sti, sto, 0, 0, getFee (some dta), 0, 0⟩⟩ := by
  constructor
  · unfold handleTransactionConfirmation
    simp [hr]
  · rfl

/-- Witness for `settlement_reverted_amended`: a concrete reverted
receipt and a concrete unconfirmed-with-data Solana outcome. -/
theorem settlement_reverted_amended_witness :
    handleTransactionConfirmation (some ⟨"0xr", some 0, 21000, 7⟩) "A" "B" 3 4
        (some .sell) =
      ⟨"0xr", -1, some ⟨"A", "B", 0, 0, 0, 0, 0⟩⟩ ∧
    handleConfirmation "sig" false (some ⟨some ⟨false, 5000⟩⟩) none "A" "B" "W" none =
      .ok ⟨"sig", -1, some ⟨"A", "B", 0, 0, getFee (some ⟨some ⟨false, 5000⟩⟩), 0, 0⟩⟩ :=
  settlement_reverted_amended ⟨"0xr", some 0, 21000, 7⟩ "A" "B" 3 4 (some .sell) rfl
    "sig" ⟨some ⟨false, 5000⟩⟩ none "A" "B" "W" none

/-- C5: in every poll iteration an explicit on-chain execution error for
the hash is checked before (and wins over) the confirmed check — even a
status that is simultaneously marked confirmed yields `Failed` when
`err` is set — and a status-1 (`Confirmed`) result never reaches the
caller without transaction data in hand, neither through
`handleConfirmation` nor through `sendAndConfirmTransaction`. -/
theorem status_error_preferred_over_unseen :
    (∀ (lvbh : ℤ) (env : PollEnv) (st : SigStatus),
      env.statusThrows = false → env.status = some st → st.err = true →
      pollIter lvbh env = .failed) ∧
    (∀ sig confirmed txData txDetails ti tOut wa side resp,
      handleConfirmation sig confirmed txData txDetails ti tOut wa side = .ok resp →
      resp.status = 1 →
      confirmed = true ∧ txData.isSome = true ∧ resp.data.isSome = true) ∧
    (∀ sig result out, sendAndConfirmOutcome sig result = .ok out →
      result.confirmed = true ∧ result.txData.isSome = true) := by
  refine ⟨?_, ?_, ?_⟩
  · intro lvbh env st hth hst herr
    unfold pollIter
    rw [hth, hst]
    simp [herr]
  · intro sig confirmed txData txDetails ti tOut wa side resp h hstatus
    unfold handleConfirmation at h
    by_cases hc : (confirmed && txData.isSome) = true
    · rw [if_pos hc] at h
      simp only [Bool.and_eq_true] at hc
      refine ⟨hc.1, hc.2, ?_⟩
      rcases hex : extractBalanceChangesAndFee txDetails wa [ti, tOut] with e | pr
      · rw [hex] at h
        exact Except.noConfusion h
      · obtain ⟨balanceChanges, fee⟩ := pr
        rw [hex] at h
        obtain rfl := Except.ok.inj h
        rfl
    · rw [if_neg hc] at h
      by_cases h2 : (txData.isSome && ! confirmed) = true
      · rw [if_pos h2] at h
        obtain rfl := Except.ok.inj h
        simp at hstatus
      · rw [if_neg h2] at h
        obtain rfl := Except.ok.inj h
        simp at hstatus
  · intro sig result out h
    unfold sendAndConfirmOutcome at h
    by_cases hc : (result.confirmed && result.txData.isSome) = true
    · simp only [Bool.and_eq_true] at hc
      exact hc
    · rw [if_neg hc] at h
      exact Except.noConfusion h

/-- Witness for `status_error_preferred_over_unseen`: an iteration whose
status carries both `err` and a confirmed level still fails; a confirmed
call with data yields status 1; a confirmed result with data passes the
`sendAndConfirmTransaction` guard. -/
theorem status_error_preferred_over_unseen_witness :
    pollIter 0 (PollEnv.mk false (some (SigStatus.mk true true)) false none false 0) =
      .failed ∧
    (true = true ∧ (some (SolTxData.mk none)).isSome = true ∧
      (some (SwapResultData.mk "A" "B" 0 0 0 0 0)).isSome = true) ∧
    ((ConfirmResult.mk true (some (SolTxData.mk none))).confirmed = true ∧
      (ConfirmResult.mk true (some (SolTxData.mk none))).txData.isSome = true) :=
  ⟨status_error_preferred_over_unseen.1 0
      (PollEnv.mk false (some (SigStatus.mk true true)) false none false 0)
      (SigStatus.mk true true) rfl rfl rfl,
    status_error_preferred_over_unseen.2.1 "s" true (some (SolTxData.mk none))
      (some ⟨some ⟨0, [], [], [], []⟩, []⟩) "A" "B" "W" none
      ⟨"s", 1, some ⟨"A", "B", 0, 0, 0, 0, 0⟩⟩
      (by norm_num [handleConfirmation, extractBalanceChangesAndFee,
        tokenBalanceLookup, WSOL, LAMPORT_TO_SOL, List.find?]) rfl,
    status_error_preferred_over_unseen.2.2 "s"
      (ConfirmResult.mk true (some (SolTxData.mk none)))
      ("s", getFee (some (SolTxData.mk none))) rfl⟩

/-! ## Transaction builder gas options

Model of `Ethereum.prepareGasOptions`. -/

/-- The gas-options object assembled for an ethers.js transaction; only
the fields the builder can set are modelled.  A dynamic-fee transaction
has `txType = 2` with `maxFeePerGas`/`maxPriorityFeePerGas` set; a
legacy transaction has `txType = 0` with `gasPrice` set. -/
structure GasOptions where
  gasLimit : ℕ
  txType : ℕ
  gasPrice : Option ℚ
  maxFeePerGas : Option ℚ
  maxPriorityFeePerGas : Option ℚ
deriving Repr, DecidableEq

/-- JS truthiness of the optional `gasPrice` argument (`0` is falsy). -/
def gasPriceTruthy (gasPrice : Option ℚ) : Bool :=
  match gasPrice with
  | none => false
  | some p => decide (p ≠ 0)

/-- The cached EIP-1559 field check
(`lastGasPriceEstimate?.isEIP1559 && maxFeePerGas !== undefined &&
maxPriorityFeePerGas !== undefined`), returning the two cached GWEI
values when available. -/
def eipCacheFields (cache : Option EthGasCacheEntry) : Option (ℚ × ℚ) :=
  match cache with
  | none => none
  | some c =>
    if c.isEIP1559 then
      match c.maxFeePerGas, c.maxPriorityFeePerGas with
      | some mf, some pf => some (mf, pf)
      | _, _ => none
    else none

/-- `Ethereum.prepareGasOptions`, threading the static gas-price cache
(which the nested `estimateGasPrice` calls read and update). -/
def prepareGasOptions (cfg : EthConfig) (cache : Option EthGasCacheEntry)
    (now : ℤ) (u : EthUpstream) (gasPrice : Option ℚ) (gasLimit : Option ℕ) :
    GasOptions × Option EthGasCacheEntry :=
  -- `gasOptions.gasLimit = gasLimit ?? DEFAULT_GAS_LIMIT` (nullish, 300000)
  let gl := gasLimit.getD 300000
  if supportsEIP1559 cfg.network then
    -- branch 1: `!gasPrice && cached EIP-1559 values available`
    match (if gasPriceTruthy gasPrice then none else eipCacheFields cache) with
    | some (mf, pf) => (⟨gl, 2, none, some mf, some pf⟩, cache)
    | none =>
      -- branch 2: `if (gasPrice)` — provided price as maxFeePerGas with
      -- `this.maxPriorityFeePerGas || 0.01` as the priority fee
      match (if gasPriceTruthy gasPrice then gasPrice else none) with
      | some p =>
        (⟨gl, 2, none, some p, some (jsOrNum cfg.maxPriorityFeePerGas (1/100))⟩, cache)
      | none =>
        -- branch 3: no cached values and no (truthy) gasPrice — call
        -- `estimateGasPrice()` and retry with the newly cached values
        match eipCacheFields (estimateGasPrice cfg cache now u).2 with
        | some (mf, pf) =>
          (⟨gl, 2, none, some mf, some pf⟩, (estimateGasPrice cfg cache now u).2)
        | none =>
          -- fall through to legacy: `gasPrice ?? (await estimateGasPrice())`;
          -- the second estimate call starts from the cache the first left
          match gasPrice with
          | some p => (⟨gl, 0, some p, none, none⟩, (estimateGasPrice cfg cache now u).2)
          | none =>
            (⟨gl, 0,
              some (estimateGasPrice cfg (estimateGasPrice cfg cache now u).2 now u).1,
              none, none⟩,
              (estimateGasPrice cfg (estimateGasPrice cfg cache now u).2 now u).2)
  else
    -- non-EIP-1559 network: legacy pricing directly
    match gasPrice with
    | some p => (⟨gl, 0, some p, none, none⟩, cache)
    | none =>
      (⟨gl, 0, some (estimateGasPrice cfg cache now u).1, none, none⟩,
        (estimateGasPrice cfg cache now u).2)

/-- A gas-options object carries exactly one pricing style: type-2 with
both dynamic-fee fields and no `gasPrice`, or type-0 with a `gasPrice`
and no dynamic-fee fields. -/
def singlePricingStyle (o : GasOptions) : Prop :=
  (o.txType = 2 ∧ o.gasPrice = none ∧ o.maxFeePerGas.isSome = true ∧
    o.maxPriorityFeePerGas.isSome = true) ∨
  (o.txType = 0 ∧ o.gasPrice.isSome = true ∧ o.maxFeePerGas = none ∧
    o.maxPriorityFeePerGas = none)

/-- C9: for every combination of optional `gasPrice`/`gasLimit` inputs,
cache state and upstream behaviour, the transaction builder's gas
options contain exactly one pricing style — either a type-2 dynamic-fee
transaction (`maxFeePerGas`/`maxPriorityFeePerGas`, no `gasPrice`) or a
type-0 legacy transaction (single `gasPrice`, no dynamic-fee fields) —
never both styles in one transaction. -/
theorem gas_options_single_pricing_style (cfg : EthConfig)
    (cache : Option EthGasCacheEntry) (now : ℤ) (u : EthUpstream)
    (gasPrice : Option ℚ) (gasLimit : Option ℕ) :
    singlePricingStyle (prepareGasOptions cfg cache now u gasPrice gasLimit).1 := by
  unfold prepareGasOptions singlePricingStyle
  split
  · rcases h1 : (if gasPriceTruthy gasPrice then none else eipCacheFields cache)
      with _ | ⟨mf, pf⟩
    · rcases h2 : (if gasPriceTruthy gasPrice then gasPrice else none) with _ | p
      · rcases h3 : eipCacheFields (estimateGasPrice cfg cache now u).2 with _ | ⟨mf, pf⟩
        · rcases h4 : gasPrice with _ | p
          · right; exact ⟨rfl, rfl, rfl, rfl⟩
          · right; exact ⟨rfl, rfl, rfl, rfl⟩
        · left; exact ⟨rfl, rfl, rfl, rfl⟩
      · left; exact ⟨rfl, rfl, rfl, rfl⟩
    · left; exact ⟨rfl, rfl, rfl, rfl⟩
  · rcases h4 : gasPrice with _ | p
    · right; exact ⟨rfl, rfl, rfl, rfl⟩
    · right; exact ⟨rfl, rfl, rfl, rfl⟩

/-! ## Balance queries

Models of `Ethereum.getBalances` (with `getAllTokenBalances`,
`getSpecificTokenBalances`, `getToken`) and `Solana.getBalances` (with
`processTokenListOnly`, `processSpecificTokens`,
`handleEmptyTokenAccounts`, `filterZeroBalances`), for the default
`fetchAll = false` path.  The JS `Record<string, number>` result is
modelled as an association list; the concurrent `Promise.all` insertions
are laid out in token-list order. -/

/-- An entry of the Ethereum token list. -/
structure EthTokenInfo where
  chainId : ℕ
  address : String
  symbol : String
deriving Repr, DecidableEq

/-- Environment of an `Ethereum.getBalances` call: instance fields plus
the outcome of each possible network lookup.  `erc20Balance` is the
ERC-20 `balanceOf` by token address (`none` = the call threw or timed
out); `normalizeAddress` is `utils.getAddress` (`none` = invalid
address format). -/
structure EthBalanceEnv where
  chainId : ℕ
  nativeTokenSymbol : String
  nativeBalance : ℚ
  tokenList : List EthTokenInfo
  erc20Balance : String → Option ℚ
  normalizeAddress : String → Option String

/-- `Ethereum.getToken`: by case-insensitive symbol first, then by
normalised address, always restricted to the instance's chain id. -/
def ethGetToken (env : EthBalanceEnv) (tokenSymbol : String) : Option EthTokenInfo :=
  match env.tokenList.find?
      (fun t => t.symbol.toUpper == tokenSymbol.toUpper && t.chainId == env.chainId) with
  | some t => some t
  | none =>
    match env.normalizeAddress tokenSymbol with
    | some normalizedAddress =>
      env.tokenList.find?
        (fun t => t.address.toLower == normalizedAddress.toLower && t.chainId == env.chainId)
    | none => none

/-- `Ethereum.getAllTokenBalances` over a token list: query every token,
skip errored lookups, and only add tokens with a positive balance. -/
def ethGetAllTokenBalances (env : EthBalanceEnv) :
    List EthTokenInfo → List (String × ℚ)
  | [] => []
  | token :: rest =>
    match env.erc20Balance token.address with
    | some balanceNum =>
      if 0 < balanceNum then (token.symbol, balanceNum) :: ethGetAllTokenBalances env rest
      else ethGetAllTokenBalances env rest
    | none => ethGetAllTokenBalances env rest

/-- `Ethereum.getSpecificTokenBalances`: skip the native symbol, resolve
each entry through `getToken`, report `0` for errored or unknown
tokens. -/
def ethGetSpecificTokenBalances (env : EthBalanceEnv) :
    List String → List (String × ℚ)
  | [] => []
  | symbolOrAddress :: rest =>
    if symbolOrAddress = env.nativeTokenSymbol then
      ethGetSpecificTokenBalances env rest
    else
      match ethGetToken env symbolOrAddress with
      | some token =>
        match env.erc20Balance token.address with
        | some balance => (token.symbol, balance) :: ethGetSpecificTokenBalances env rest
        | none => (token.symbol, 0) :: ethGetSpecificTokenBalances env rest
      | none => (symbolOrAddress, 0) :: ethGetSpecificTokenBalances env rest

/-- `Ethereum.getBalances`: an empty token array is treated as "no
tokens specified"; the native balance is always first; then either all
token-list balances (positive only) or the requested tokens. -/
def ethGetBalances (env : EthBalanceEnv) (tokens : Option (List String)) :
    List (String × ℚ) :=
  -- `const effectiveTokens = tokens && tokens.length === 0 ? undefined : tokens`
  let effectiveTokens := if tokens = some [] then none else tokens
  (env.nativeTokenSymbol, env.nativeBalance) ::
    (match effectiveTokens with
     | none => ethGetAllTokenBalances env env.tokenList
     | some syms => ethGetSpecificTokenBalances env syms)

/-- An entry of the Solana token list. -/
structure SolTokenInfo where
  symbol : String
  address : String
  decimals : ℕ
deriving Repr, DecidableEq

/-- Environment of a `Solana.getBalances` call (`fetchAll = false`):
`solBalance` is the `getSolBalance` result (that helper already maps
errors to `0`); `tokenAccounts` is the mint → raw-amount map returned by
`fetchTokenAccounts`; `mintDecimals` is the on-chain mint-info lookup
(`none` = it threw, defaulting to 9 decimals); `validAddress` is
`isValidSolanaAddress`. -/
structure SolBalanceEnv where
  solBalance : ℚ
  tokenAccounts : List (String × ℕ)
  tokenList : List SolTokenInfo
  mintDecimals : String → Option ℕ
  validAddress : String → Bool

/-- `tokenAccounts.get(mint)`. -/
def accountLookup (accounts : List (String × ℕ)) (mint : String) : Option ℕ :=
  (accounts.find? (fun kv => kv.1 == mint)).map Prod.snd

/-- `Solana.getTokenBalance`: `0` for a missing account, else the raw
amount scaled by the token's decimals. -/
def getTokenBalance (tokenAccount : Option ℕ) (decimals : ℕ) : ℚ :=
  match tokenAccount with
  | none => 0
  | some amount => (amount : ℚ) / 10 ^ decimals

/-- `Solana.getTokenBalanceWithMintInfo`: decimals from the mint info,
defaulting to 9 when the lookup fails. -/
def getTokenBalanceWithMintInfo (env : SolBalanceEnv) (amount : ℕ)
    (mintAddress : String) : ℚ :=
  match env.mintDecimals mintAddress with
  | some decimals => (amount : ℚ) / 10 ^ decimals
  | none => (amount : ℚ) / 10 ^ 9

/-- `symbol.toUpperCase() === 'SOL' || symbol === SOL_NATIVE_MINT`. -/
def isSolSymbol (s : String) : Bool :=
  s.toUpper == "SOL" || s == WSOL

/-- `Solana.handleEmptyTokenAccounts`: with specific symbols requested,
every non-SOL one is reported as `0`; otherwise the balances are
returned unchanged. -/
def handleEmptyTokenAccounts (balances : List (String × ℚ))
    (effectiveSymbols : Option (List String)) : List (String × ℚ) :=
  match effectiveSymbols with
  | none => balances
  | some syms =>
    balances ++ (syms.filter (fun s => ! isSolSymbol s)).map (fun s => (s, 0))

/-- `Solana.processSpecificTokens`. -/
def processSpecificTokens (env : SolBalanceEnv) : List String → List (String × ℚ)
  | [] => []
  | symbol :: rest =>
    if isSolSymbol symbol then processSpecificTokens env rest
    else
      match env.tokenList.find? (fun t => t.symbol.toUpper == symbol.toUpper) with
      | some tokenInfo =>
        (tokenInfo.symbol,
          getTokenBalance (accountLookup env.tokenAccounts tokenInfo.address)
            tokenInfo.decimals) :: processSpecificTokens env rest
      | none =>
        if env.validAddress symbol then
          match accountLookup env.tokenAccounts symbol with
          | some amount =>
            (symbol, getTokenBalanceWithMintInfo env amount symbol) ::
              processSpecificTokens env rest
          | none => (symbol, 0) :: processSpecificTokens env rest
        else (symbol, 0) :: processSpecificTokens env rest

/-- `Solana.processTokenListOnly`: every token of the loaded token list
except SOL is checked; only present accounts with positive balance are
added. -/
def processTokenListOnly (env : SolBalanceEnv) : List SolTokenInfo → List (String × ℚ)
  | [] => []
  | tokenInfo :: rest =>
    if tokenInfo.symbol = "SOL" then processTokenListOnly env rest
    else
      match accountLookup env.tokenAccounts tokenInfo.address with
      | some amount =>
        if 0 < getTokenBalance (some amount) tokenInfo.decimals then
          (tokenInfo.symbol, getTokenBalance (some amount) tokenInfo.decimals) ::
            processTokenListOnly env rest
        else processTokenListOnly env rest
      | none => processTokenListOnly env rest

/-- `Solana.filterZeroBalances`: always keep SOL (whatever its value),
keep every other entry only when positive. -/
def filterZeroBalances (balances : List (String × ℚ)) : List (String × ℚ) :=
  (match balances.find? (fun kv => kv.1 == "SOL") with
   | some kv => [("SOL", kv.2)]
   | none => []) ++
  balances.filter (fun kv => ! (kv.1 == "SOL") && decide (0 < kv.2))

/-- `Solana.getBalances` (`fetchAll = false`). -/
def solGetBalances (env : SolBalanceEnv) (tokens : Option (List String)) :
    List (String × ℚ) :=
  -- `const effectiveSymbols = tokens && tokens.length === 0 ? undefined : tokens`
  let effectiveSymbols := if tokens = some [] then none else tokens
  -- SOL is fetched when no specific tokens were requested or SOL is among them
  let balances0 : List (String × ℚ) :=
    match effectiveSymbols with
    | none => [("SOL", env.solBalance)]
    | some syms => if syms.any isSolSymbol then [("SOL", env.solBalance)] else []
  -- early return when exactly SOL alone was requested
  if (match effectiveSymbols with
      | some [s] => isSolSymbol s
      | _ => false) then balances0
  else if env.tokenAccounts.isEmpty then
    handleEmptyTokenAccounts balances0 effectiveSymbols
  else
    match effectiveSymbols with
    | none => filterZeroBalances (balances0 ++ processTokenListOnly env env.tokenList)
    | some syms => balances0 ++ processSpecificTokens env syms

/-- Every non-native entry the all-token scan produces is positive. -/
lemma ethGetAllTokenBalances_pos (env : EthBalanceEnv) :
    ∀ ts s b, (s, b) ∈ ethGetAllTokenBalances env ts → 0 < b := by
  intro ts
  induction ts with
  | nil => intro s b h; cases h
  | cons token rest ih =>
    intro s b h
    unfold ethGetAllTokenBalances at h
    rcases hb : env.erc20Balance token.address with _ | bal
    · rw [hb] at h
      exact ih s b h
    · rw [hb] at h
      replace h : (s, b) ∈ (if 0 < bal
          then (token.symbol, bal) :: ethGetAllTokenBalances env rest
          else ethGetAllTokenBalances env rest) := h
      by_cases hpos : 0 < bal
      · rw [if_pos hpos] at h
        rcases List.mem_cons.mp h with heq | hmem
        · simp only [Prod.mk.injEq] at heq
          exact heq.2 ▸ hpos
        · exact ih s b hmem
      · rw [if_neg hpos] at h
        exact ih s b h

/-- Every token of the list with a positive balance is reported. -/
lemma ethGetAllTokenBalances_mem (env : EthBalanceEnv) :
    ∀ ts t b, t ∈ ts → env.erc20Balance t.address = some b → 0 < b →
      (t.symbol, b) ∈ ethGetAllTokenBalances env ts := by
  intro ts
  induction ts with
  | nil => intro t b ht; cases ht
  | cons token rest ih =>
    intro t b ht hb hpos
    unfold ethGetAllTokenBalances
    rcases List.mem_cons.mp ht with rfl | hmem
    · rw [hb]
      show (t.symbol, b) ∈ (if 0 < b
        then (t.symbol, b) :: ethGetAllTokenBalances env rest
        else ethGetAllTokenBalances env rest)
      rw [if_pos hpos]
      exact List.mem_cons_self _ _
    · rcases hb' : env.erc20Balance token.address with _ | bal
      · exact ih t b hmem hb hpos
      · show (t.symbol, b) ∈ (if 0 < bal
          then (token.symbol, bal) :: ethGetAllTokenBalances env rest
          else ethGetAllTokenBalances env rest)
        by_cases hpos' : 0 < bal
        · rw [if_pos hpos']
          exact List.mem_cons_of_mem _ (ih t b hmem hb hpos)
        · rw [if_neg hpos']
          exact ih t b hmem hb hpos

/-- Every entry of the token-list-only scan is positive. -/
lemma processTokenListOnly_pos (env : SolBalanceEnv) :
    ∀ ts s b, (s, b) ∈ processTokenListOnly env ts → 0 < b := by
  intro ts
  induction ts with
  | nil => intro s b h; cases h
  | cons tokenInfo rest ih =>
    intro s b h
    unfold processTokenListOnly at h
    by_cases hsol : tokenInfo.symbol = "SOL"
    · rw [if_pos hsol] at h
      exact ih s b h
    · rw [if_neg hsol] at h
      rcases ha : accountLookup env.tokenAccounts tokenInfo.address with _ | amount
      · rw [ha] at h
        exact ih s b h
      · rw [ha] at h
        replace h : (s, b) ∈ (if 0 < getTokenBalance (some amount) tokenInfo.decimals
            then (tokenInfo.symbol, getTokenBalance (some amount) tokenInfo.decimals) ::
              processTokenListOnly env rest
            else processTokenListOnly env rest) := h
        by_cases hpos : 0 < getTokenBalance (some amount) tokenInfo.decimals
        · rw [if_pos hpos] at h
          rcases List.mem_cons.mp h with heq | hmem
          · simp only [Prod.mk.injEq] at heq
            exact heq.2 ▸ hpos
          · exact ih s b hmem
        · rw [if_neg hpos] at h
          exact ih s b h

/-- Every non-SOL token of the list with an account and a positive
balance is reported by the token-list-only scan. -/
lemma processTokenListOnly_mem (env : SolBalanceEnv) :
    ∀ ts t amt, t ∈ ts → t.symbol ≠ "SOL" →
      accountLookup env.tokenAccounts t.address = some amt →
      0 < getTokenBalance (some amt) t.decimals →
      (t.symbol, getTokenBalance (some amt) t.decimals) ∈ processTokenListOnly env ts := by
  intro ts
  induction ts with
  | nil => intro t amt ht; cases ht
  | cons tokenInfo rest ih =>
    intro t amt ht hsym hl hpos
    unfold processTokenListOnly
    rcases List.mem_cons.mp ht with rfl | hmem
    · rw [if_neg hsym, hl]
      show (t.symbol, getTokenBalance (some amt) t.decimals) ∈
        (if 0 < getTokenBalance (some amt) t.decimals
          then (t.symbol, getTokenBalance (some amt) t.decimals) ::
            processTokenListOnly env rest
          else processTokenListOnly env rest)
      rw [if_pos hpos]
      exact List.mem_cons_self _ _
    · by_cases hsol : tokenInfo.symbol = "SOL"
      · rw [if_pos hsol]
        exact ih t amt hmem hsym hl hpos
      · rw [if_neg hsol]
        rcases ha : accountLookup env.tokenAccounts tokenInfo.address with _ | amount
        · exact ih t amt hmem hsym hl hpos
        · show (t.symbol, getTokenBalance (some amt) t.decimals) ∈
            (if 0 < getTokenBalance (some amount) tokenInfo.decimals
              then (tokenInfo.symbol, getTokenBalance (some amount) tokenInfo.decimals) ::
                processTokenListOnly env rest
              else processTokenListOnly env rest)
          by_cases hpos' : 0 < getTokenBalance (some amount) tokenInfo.decimals
          · rw [if_pos hpos']
            exact List.mem_cons_of_mem _ (ih t amt hmem hsym hl hpos)
          · rw [if_neg hpos']
            exact ih t amt hmem hsym hl hpos

/-- The SOL entry survives `filterZeroBalances` whatever its value. -/
lemma filterZeroBalances_sol (v : ℚ) (rest : List (String × ℚ)) :
    ("SOL", v) ∈ filterZeroBalances (("SOL", v) :: rest) := by
  have hf : ((("SOL", v)) :: rest).find? (fun kv => kv.1 == "SOL") = some ("SOL", v) := by
    simp [List.find?]
  unfold filterZeroBalances
  rw [hf]
  exact List.mem_append_left _ (List.mem_singleton.mpr rfl)

/-- Every non-SOL entry surviving `filterZeroBalances` is positive. -/
lemma filterZeroBalances_pos (l : List (String × ℚ)) (s : String) (b : ℚ)
    (h : (s, b) ∈ filterZeroBalances l) (hs : s ≠ "SOL") : 0 < b := by
  unfold filterZeroBalances at h
  rcases List.mem_append.mp h with h1 | h2
  · rcases hf : l.find? (fun kv => kv.1 == "SOL") with _ | kv
    · rw [hf] at h1
      cases h1
    · rw [hf] at h1
      simp only [List.mem_singleton, Prod.mk.injEq] at h1
      exact absurd h1.1 hs
  · have hp := (List.mem_filter.mp h2).2
    simp only [Bool.and_eq_true, Bool.not_eq_true', beq_eq_false_iff_ne,
      decide_eq_true_eq] at hp
    exact hp.2

/-- A positive non-SOL entry survives `filterZeroBalances`. -/
lemma filterZeroBalances_mem (l : List (String × ℚ)) (s : String) (b : ℚ)
    (h : (s, b) ∈ l) (hs : s ≠ "SOL") (hb : 0 < b) :
    (s, b) ∈ filterZeroBalances l := by
  unfold filterZeroBalances
  refine List.mem_append_right _ (List.mem_filter.mpr ⟨h, ?_⟩)
  simp [hs, hb]

/-- The `none` path of `Solana.getBalances` in closed form. -/
lemma solGetBalances_none (senv : SolBalanceEnv) :
    solGetBalances senv none =
      if senv.tokenAccounts.isEmpty then [("SOL", senv.solBalance)]
      else filterZeroBalances (("SOL", senv.solBalance) ::
        processTokenListOnly senv senv.tokenList) := rfl

/-- C10: at the public balance-query interface of both chain adapters,
an empty token array behaves identically to no token list at all; on
that default path the native asset balance is always included whatever
its value, every token of the loaded token list with a positive balance
is reported, and every reported non-native balance is positive (zero
balances are filtered out). -/
theorem get_balances_empty_token_list (env : EthBalanceEnv) (senv : SolBalanceEnv) :
    ethGetBalances env (some []) = ethGetBalances env none ∧
    (env.nativeTokenSymbol, env.nativeBalance) ∈ ethGetBalances env none ∧
    (∀ s b, (s, b) ∈ ethGetBalances env none → s ≠ env.nativeTokenSymbol → 0 < b) ∧
    (∀ t ∈ env.tokenList, ∀ b, env.erc20Balance t.address = some b → 0 < b →
      (t.symbol, b) ∈ ethGetBalances env none) ∧
    solGetBalances senv (some []) = solGetBalances senv none ∧
    ("SOL", senv.solBalance) ∈ solGetBalances senv none ∧
    (∀ s b, (s, b) ∈ solGetBalances senv none → s ≠ "SOL" → 0 < b) ∧
    (∀ t ∈ senv.tokenList, t.symbol ≠ "SOL" → ∀ amt,
      accountLookup senv.tokenAccounts t.address = some amt →
      0 < getTokenBalance (some amt) t.decimals →
      (t.symbol, getTokenBalance (some amt) t.decimals) ∈ solGetBalances senv none) := by
  refine ⟨rfl, List.mem_cons_self _ _, ?_, ?_, rfl, ?_, ?_, ?_⟩
  · intro s b h hs
    have h' : (s, b) ∈ (env.nativeTokenSymbol, env.nativeBalance) ::
        ethGetAllTokenBalances env env.tokenList := h
    rcases List.mem_cons.mp h' with heq | hmem
    · simp only [Prod.mk.injEq] at heq
      exact absurd heq.1 hs
    · exact ethGetAllTokenBalances_pos env env.tokenList s b hmem
  · intro t ht b hb hpos
    show (t.symbol, b) ∈ (env.nativeTokenSymbol, env.nativeBalance) ::
      ethGetAllTokenBalances env env.tokenList
    exact List.mem_cons_of_mem _ (ethGetAllTokenBalances_mem env env.tokenList t b ht hb hpos)
  · rw [solGetBalances_none]
    by_cases hemp : senv.tokenAccounts.isEmpty = true
    · rw [if_pos hemp]
      exact List.mem_singleton.mpr rfl
    · rw [if_neg hemp]
      exact filterZeroBalances_sol _ _
  · intro s b h hs
    rw [solGetBalances_none] at h
    by_cases hemp : senv.tokenAccounts.isEmpty = true
    · rw [if_pos hemp] at h
      simp only [List.mem_singleton, Prod.mk.injEq] at h
      exact absurd h.1 hs
    · rw [if_neg hemp] at h
      exact filterZeroBalances_pos _ s b h hs
  · intro t ht hsym amt hl hpos
    rw [solGetBalances_none]
    by_cases hemp : senv.tokenAccounts.isEmpty = true
    · rw [List.isEmpty_iff] at hemp
      rw [hemp] at hl
      simp [accountLookup, List.find?] at hl
    · rw [if_neg hemp]
      exact filterZeroBalances_mem _ _ _
        (List.mem_cons_of_mem _ (processTokenListOnly_mem senv senv.tokenList t amt ht hsym hl hpos))
        hsym hpos

/-- Witness for `get_balances_empty_token_list`: concrete environments
with a zero native balance (still reported), one positive ERC-20 token
and one positive SPL token. -/
theorem get_balances_empty_token_list_witness :
    ("ETH", (0 : ℚ)) ∈ ethGetBalances
      (EthBalanceEnv.mk 1 "ETH" 0 [EthTokenInfo.mk 1 "0xa" "TOK"]
        (fun a => if a == "0xa" then some 5 else none) (fun _ => none)) none ∧
    ("TOK", (5 : ℚ)) ∈ ethGetBalances
      (EthBalanceEnv.mk 1 "ETH" 0 [EthTokenInfo.mk 1 "0xa" "TOK"]
        (fun a => if a == "0xa" then some 5 else none) (fun _ => none)) none ∧
    ("SOL", (0 : ℚ)) ∈ solGetBalances
      (SolBalanceEnv.mk 0 [("mintA", 7)] [SolTokenInfo.mk "TOKA" "mintA" 1]
        (fun _ => none) (fun _ => false)) none ∧
    ("TOKA", getTokenBalance (some 7) 1) ∈ solGetBalances
      (SolBalanceEnv.mk 0 [("mintA", 7)] [SolTokenInfo.mk "TOKA" "mintA" 1]
        (fun _ => none) (fun _ => false)) none :=
  ⟨(get_balances_empty_token_list
      (EthBalanceEnv.mk 1 "ETH" 0 [EthTokenInfo.mk 1 "0xa" "TOK"]
        (fun a => if a == "0xa" then some 5 else none) (fun _ => none))
      (SolBalanceEnv.mk 0 [("mintA", 7)] [SolTokenInfo.mk "TOKA" "mintA" 1]
        (fun _ => none) (fun _ => false))).2.1,
    (get_balances_empty_token_list
      (EthBalanceEnv.mk 1 "ETH" 0 [EthTokenInfo.mk 1 "0xa" "TOK"]
        (fun a => if a == "0xa" then some 5 else none) (fun _ => none))
      (SolBalanceEnv.mk 0 [("mintA", 7)] [SolTokenInfo.mk "TOKA" "mintA" 1]
        (fun _ => none) (fun _ => false))).2.2.2.1 (EthTokenInfo.mk 1 "0xa" "TOK")
      (by decide) 5 rfl (by norm_num),
    (get_balances_empty_token_list
      (EthBalanceEnv.mk 1 "ETH" 0 [EthTokenInfo.mk 1 "0xa" "TOK"]
        (fun a => if a == "0xa" then some 5 else none) (fun _ => none))
      (SolBalanceEnv.mk 0 [("mintA", 7)] [SolTokenInfo.mk "TOKA" "mintA" 1]
        (fun _ => none) (fun _ => false))).2.2.2.2.2.1,
    (get_balances_empty_token_list
      (EthBalanceEnv.mk 1 "ETH" 0 [EthTokenInfo.mk 1 "0xa" "TOK"]
        (fun a => if a == "0xa" then some 5 else none) (fun _ => none))
      (SolBalanceEnv.mk 0 [("mintA", 7)] [SolTokenInfo.mk "TOKA" "mintA" 1]
        (fun _ => none) (fun _ => false))).2.2.2.2.2.2.2 (SolTokenInfo.mk "TOKA" "mintA" 1)
      (by decide) (by decide) 7 rfl (by norm_num [getTokenBalance])⟩

end Gateway
